import Mathlib

/-!
# Occupancy grid of `Ros_Qt5_Gui_App`

A shallow embedding of `src/basic/map/occupancy_map.h` (`basic::MapConfig`,
`basic::OccupancyMap`) and of the map functions of
`src/mainwindow/src/display/display_occ_map.cpp` (`Display::DisplayOccMap`), and
theorems about them.

Conventions of the embedding:

* `double` and `float` values are rationals (`ℚ`): every comparison the code makes
  between an `int` and a `double` is exact, and the arithmetic of the coordinate
  transforms is taken exactly; `round` is C's (half away from zero) and a `double` stored
  into an `int` is truncated toward zero.
* a `QImage` of `Format_RGB32` is a record of its dimensions and its scan lines of opaque
  colours; what a fresh image holds is an argument.
* `int` is `Int`; the one place where the code mixes `unsigned int` with `int`
  (the loop bounds of `Save`) reduces modulo `2^32`.
* `Eigen::MatrixXi` is a record of its two dimensions and its rows.
* files are arguments: the parsed descriptor document and the raster stream.
-/

namespace basic

/-! ## Constants -/

/-- The macro `OCC_GRID_UNKNOWN` of `occupancy_map.h` line 34. -/
def OCC_GRID_UNKNOWN : Int := 0

/-- The macro `OCC_GRID_FREE` of `occupancy_map.h` line 35. -/
def OCC_GRID_FREE : Int := 0

/-- The macro `OCC_GRID_OCCUPIED` of `occupancy_map.h` line 36. -/
def OCC_GRID_OCCUPIED : Int := 100

/-! ## Eigen matrices -/

/-- An `Eigen::Matrix<α, Dynamic, Dynamic>`: `rows()`, `cols()` and the coefficients,
row `i` being `coeffs[i]`. -/
structure EigenMatrix (α : Type) where
  rows : Nat
  cols : Nat
  coeffs : List (List α)
  deriving DecidableEq, Repr

/-- The type `Eigen::MatrixXi`. -/
abbrev MatrixXi := EigenMatrix Int

/-- The shape discipline of an Eigen matrix: `rows` rows of `cols` coefficients. -/
def EigenMatrix.WF {α : Type} (m : EigenMatrix α) : Prop :=
  m.coeffs.length = m.rows ∧ ∀ r ∈ m.coeffs, r.length = m.cols

instance {α : Type} (m : EigenMatrix α) : Decidable m.WF := by
  unfold EigenMatrix.WF
  exact inferInstance

/-- Coefficient access `m(i, j)`; `none` outside the matrix, where Eigen's access is
undefined. -/
def EigenMatrix.coeff {α : Type} (m : EigenMatrix α) (i j : Nat) : Option α :=
  m.coeffs[i]?.bind fun r => r[j]?

/-- The default-constructed `Eigen::MatrixXi()`: a `0 x 0` matrix. -/
def EigenMatrix.empty {α : Type} : EigenMatrix α := ⟨0, 0, []⟩

/-- Eigen's `m.colwise().reverse()`: every column is reversed, that is, the order of
the rows is reversed. -/
def EigenMatrix.colwiseReverse {α : Type} (m : EigenMatrix α) : EigenMatrix α :=
  { m with coeffs := m.coeffs.reverse }

/-! ## MapConfig -/

/-- The `struct MapConfig`. -/
structure MapConfig where
  image : String
  resolution : ℚ
  origin : List ℚ
  negate : Int
  occupied_thresh : ℚ
  free_thresh : ℚ
  deriving DecidableEq, Repr

/-- The constructor `MapConfig()`: the member initialisers and `origin.resize(3)`. -/
def MapConfig.default : MapConfig :=
  { image := "./", resolution := 1/10, origin := [0, 0, 0], negate := 0,
    occupied_thresh := 1/4, free_thresh := 13/20 }

/-- The constructor `MapConfig(ori, res)`. -/
def MapConfig.mk2 (ori : List ℚ) (res : ℚ) : MapConfig :=
  { MapConfig.default with origin := ori, resolution := res }

/-! ## C arithmetic on `double` -/

/-- C's `round`: to the nearest integer, halfway cases away from zero. -/
def cround (x : ℚ) : ℚ :=
  if 0 ≤ x then (⌊x + 1 / 2⌋ : Int) else (⌈x - 1 / 2⌉ : Int)

/-- The conversion of a `double` to `int`: truncation toward zero. -/
def toInt (x : ℚ) : Int :=
  if 0 ≤ x then ⌊x⌋ else ⌈x⌉

/-- The conversion of an `int` to `unsigned int` (32 bits). -/
def toUInt (n : Int) : Nat := (n % 4294967296).toNat

/-- The conversion of a byte read from a stream to `int8_t` (`signed char`). -/
def toInt8 (b : Nat) : Int :=
  if b % 256 < 128 then ((b % 256 : Nat) : Int) else ((b % 256 : Nat) : Int) - 256

/-- The conversion of an `int` to `int8_t` on assignment. -/
def wrapInt8 (v : Int) : Int := (v + 128) % 256 - 128

/-- A counted loop `for (k = 0; k < n; k++)` whose iterations each produce some output,
collected in order; `none` as soon as one iteration is undefined. -/
def forRange {β : Type} : Nat → (Nat → Option (List β)) → Option (List β)
  | 0, _ => some []
  | n + 1, body => do
    let acc ← forRange n body
    let out ← body n
    pure (acc ++ out)

/-- A counted loop `for (k = 0; k < n; k++)` over a state that an iteration may leave
undefined. -/
def forState {σ : Type} : Nat → (Nat → σ → Option σ) → σ → Option σ
  | 0, _, s => some s
  | n + 1, body, s => (forState n body s).bind (body n)

/-- The element at row `y`, column `x` of a table stored by rows. -/
def getAt {α : Type} (ll : List (List α)) (y x : Nat) : Option α :=
  ll[y]?.bind fun r => r[x]?

/-- The table with the element at row `y`, column `x` replaced; the same table when
there is no such element. -/
def setAt {α : Type} (ll : List (List α)) (y x : Nat) (v : α) : List (List α) :=
  match ll[y]? with
  | none => ll
  | some r => ll.set y (r.set x v)

/-! ## Paths (`boost::filesystem::path`, POSIX) -/

/-- The text after the last separator: `path::filename()`. -/
def pathFilename (p : List Char) : List Char :=
  (p.reverse.takeWhile fun c => c ≠ '/').reverse

/-- The filename without its extension, `path::stem()`: the extension starts at the last
dot of the filename, and the filenames `.` and `..` have none. -/
def pathStem (p : List Char) : List Char :=
  let f := pathFilename p
  if f = ['.'] ∨ f = ['.', '.'] then f
  else if '.' ∈ f then ((f.reverse.dropWhile fun c => c ≠ '.').drop 1).reverse
  else f

/-- The path without its filename, `path::parent_path()`. -/
def pathParent (p : List Char) : List Char :=
  let d := p.reverse.dropWhile fun c => c ≠ '/'
  let d1 := d.dropWhile fun c => c = '/'
  if d1 = [] ∧ d ≠ [] then ['/'] else d1.reverse

/-- Whether the path has a root directory: `path::is_absolute()`. -/
def pathIsAbsolute (p : List Char) : Bool :=
  p.head? = some '/'

/-- The `dir / p` of two paths, for a relative `p`. -/
def pathAppend (dir p : List Char) : List Char :=
  if dir = [] then p
  else if dir.getLast? = some '/' then dir ++ p
  else dir ++ '/' :: p

/-! ## MapConfig: descriptor files -/

/-- A parsed descriptor (`YAML::Node doc`): for each key the value that
`doc[key].as<T>()` yields, `none` where the extraction raises `YAML::InvalidScalar`. -/
structure YamlDoc where
  resolution : Option ℚ
  negate : Option Int
  occupied_thresh : Option ℚ
  free_thresh : Option ℚ
  origin : Option (List ℚ)
  image : Option String
  deriving DecidableEq, Repr

/-- `MapConfig::Load(filename)`; `fin` is the document of the file, `none` when the file
cannot be opened. The result is the returned flag and the configuration afterwards. -/
def MapConfig.Load (cfg : MapConfig) (filename : String) (fin : Option YamlDoc) :
    Bool × MapConfig :=
  match fin with
  | none => (false, cfg)
  | some doc =>
    match doc.resolution with
    | none => (false, cfg)
    | some resolution =>
      let cfg := { cfg with resolution := resolution }
      match doc.negate with
      | none => (false, cfg)
      | some negate =>
        let cfg := { cfg with negate := negate }
        match doc.occupied_thresh with
        | none => (false, cfg)
        | some occupied_thresh =>
          let cfg := { cfg with occupied_thresh := occupied_thresh }
          match doc.free_thresh with
          | none => (false, cfg)
          | some free_thresh =>
            let cfg := { cfg with free_thresh := free_thresh }
            match doc.origin with
            | none => (false, cfg)
            | some origin =>
              let cfg := { cfg with origin := origin }
              match doc.image with
              | none => (false, cfg)
              | some image =>
                let cfg := { cfg with image := image }
                if image.length = 0 then (false, cfg)
                else if !pathIsAbsolute image.data then
                  let dir := pathParent filename.data
                  (true, { cfg with image := String.mk (pathAppend dir image.data) })
                else (true, cfg)

/-- `MapConfig::Save(filename)`: the document written, `none` when the file cannot be
opened (`opens = false`) and nothing is written. Inside, `none` stands for the undefined
read of `origin[0..2]` past the end of the vector. -/
def MapConfig.Save (cfg : MapConfig) (opens : Bool) : Option (Option YamlDoc) :=
  if opens then
    some (do
      let o0 ← cfg.origin[0]?
      let o1 ← cfg.origin[1]?
      let o2 ← cfg.origin[2]?
      pure { image := some cfg.image, resolution := some cfg.resolution,
             origin := some [o0, o1, o2], negate := some cfg.negate,
             occupied_thresh := some cfg.occupied_thresh,
             free_thresh := some cfg.free_thresh })
  else none

/-! ## OccupancyMap -/

/-- The `class OccupancyMap`. -/
structure OccupancyMap where
  map_config : MapConfig
  rows : Int
  cols : Int
  map_data : MatrixXi
  deriving DecidableEq, Repr

namespace OccupancyMap

/-- The constructor `OccupancyMap()`. -/
def default : OccupancyMap :=
  { map_config := MapConfig.default, rows := 0, cols := 0, map_data := EigenMatrix.empty }

/-- The constructor `OccupancyMap(rows_, cols_, origin, res, data)`. -/
def mk5 (rows_ cols_ : Int) (origin : ℚ × ℚ × ℚ) (res : ℚ) (data : MatrixXi) :
    OccupancyMap :=
  { map_config := MapConfig.mk2 [origin.1, origin.2.1, origin.2.2] res,
    rows := rows_, cols := cols_, map_data := data }

/-- `GetMapData()`. -/
def GetMapData (g : OccupancyMap) : MatrixXi := g.map_data

/-- `flip()`: `map_data.colwise().reverse()`. -/
def flip (g : OccupancyMap) : MatrixXi := g.map_data.colwiseReverse

/-- `SetFlip()`: `map_data = flip()`. -/
def SetFlip (g : OccupancyMap) : OccupancyMap := { g with map_data := g.flip }

/-- `SetMapData(data)`: `map_data = data; map_data = flip();`. -/
def SetMapData (g : OccupancyMap) (data : MatrixXi) : OccupancyMap :=
  let g1 := { g with map_data := data }
  { g1 with map_data := g1.flip }

/-- `Rows()`. -/
def Rows (g : OccupancyMap) : Int := g.rows

/-- `Cols()`. -/
def Cols (g : OccupancyMap) : Int := g.cols

/-- `width()`. -/
def width (g : OccupancyMap) : Int := g.cols

/-- `height()`. -/
def height (g : OccupancyMap) : Int := g.rows

/-- An assignment `map(r, c) = v` through `operator()(r, c)`, that is, through
`map_data(r, c)`; `none` outside the matrix. -/
def assignCell (g : OccupancyMap) (r c : Nat) (v : Int) : Option OccupancyMap :=
  if (g.map_data.coeff r c).isSome then
    some { g with map_data := { g.map_data with coeffs := setAt g.map_data.coeffs r c v } }
  else none

/-- The read `map_config.origin[i]`; `none` past the end of the vector. -/
def originAt (g : OccupancyMap) (i : Nat) : Option ℚ := g.map_config.origin[i]?

/-- `idx2xy(c, r, x, y)`: the outputs `(x, y)`. -/
def idx2xy (g : OccupancyMap) (c r : Int) : Option (ℚ × ℚ) := do
  let o0 ← g.originAt 0
  let o1 ← g.originAt 1
  pure (o0 + c * g.map_config.resolution, o1 + r * g.map_config.resolution)

/-- `xy2idx(x, y, c, r)`: the outputs `(c, r)`. The `round` is applied to the
difference, the quotient is truncated by the store into `int`. -/
def xy2idx (g : OccupancyMap) (x y : ℚ) : Option (Int × Int) := do
  let o0 ← g.originAt 0
  let o1 ← g.originAt 1
  pure (toInt (cround (x - o0) / g.map_config.resolution),
        toInt (cround (y - o1) / g.map_config.resolution))

/-- `inMap(int r_idx, int c_idx)`. -/
def inMapIdx (g : OccupancyMap) (r_idx c_idx : Int) : Bool :=
  decide (c_idx ≥ 0) && decide (r_idx ≥ 0) && decide (c_idx < g.cols) && decide (r_idx < g.rows)

/-- `inMap(const double &x, const double &y)`. -/
def inMap (g : OccupancyMap) (x y : ℚ) : Option Bool := do
  let o0 ← g.originAt 0
  let o1 ← g.originAt 1
  let c_idx := toInt (cround ((x - o0) / g.map_config.resolution))
  let r_idx := toInt (cround ((y - o1) / g.map_config.resolution))
  pure (decide (c_idx ≥ 0) && decide (r_idx ≥ 0) && decide (c_idx < g.cols)
    && decide (r_idx < g.rows))

/-- `ScenePose2xy(scene_x, scene_y, word_x, word_y)`: the outputs `(word_x, word_y)`. -/
def ScenePose2xy (g : OccupancyMap) (scene_x scene_y : ℚ) : Option (ℚ × ℚ) := do
  let o0 ← g.originAt 0
  let o1 ← g.originAt 1
  pure (scene_x * g.map_config.resolution + o0,
        ((g.height : ℚ) - scene_y) * g.map_config.resolution + o1)

/-- `OccPose2xy(scene_x, scene_y, word_x, word_y)`: the outputs `(word_x, word_y)`. -/
def OccPose2xy (g : OccupancyMap) (scene_x scene_y : ℚ) : Option (ℚ × ℚ) := do
  let o0 ← g.originAt 0
  let o1 ← g.originAt 1
  let word_y := scene_x * g.map_config.resolution + o0
  let word_x := ((g.height : ℚ) - scene_y) * g.map_config.resolution + o1
  pure (word_x, word_y)

/-- `xy2ScenePose(word_x, word_y, scene_x, scene_y)`: the outputs
`(scene_x, scene_y)`. -/
def xy2ScenePose (g : OccupancyMap) (word_x word_y : ℚ) : Option (ℚ × ℚ) := do
  let o0 ← g.originAt 0
  let o1 ← g.originAt 1
  pure ((word_x - o0) / g.map_config.resolution,
        (g.height : ℚ) - (word_y - o1) / g.map_config.resolution)

/-- `xy2OccPose(word_x, word_y, scene_x, scene_y)`: the outputs
`(scene_x, scene_y)`. -/
def xy2OccPose (g : OccupancyMap) (word_x word_y : ℚ) : Option (ℚ × ℚ) := do
  let o0 ← g.originAt 0
  let o1 ← g.originAt 1
  let scene_y := (word_x - o0) / g.map_config.resolution
  let scene_x := (g.height : ℚ) - (word_y - o1) / g.map_config.resolution
  pure (scene_x, scene_y)

/-- The `Eigen::Vector4i` of a colour. -/
abbrev Vector4i := Int × Int × Int × Int

/-- The branch chain of `GetCostMapData` for one cell value. -/
def costColor (data : Int) : Vector4i :=
  if data ≥ 100 then (0xff, 0x00, 0xff, 50)
  else if data ≥ 90 ∧ data < 100 then (0x66, 0xff, 0xff, 50)
  else if data ≥ 70 ∧ data ≤ 90 then (0xff, 0x00, 0x33, 50)
  else if data ≥ 60 ∧ data ≤ 70 then (0xbe, 0x28, 0x1a, 50)
  else if data ≥ 50 ∧ data < 60 then (0xBE, 0x1F, 0x58, 50)
  else if data ≥ 40 ∧ data < 50 then (0xBE, 0x25, 0x76, 50)
  else if data ≥ 30 ∧ data < 40 then (0xBE, 0x2A, 0x99, 50)
  else if data ≥ 20 ∧ data < 30 then (0xBE, 0x35, 0xB3, 50)
  else if data ≥ 10 ∧ data < 20 then (0xB0, 0x3C, 0xbE, 50)
  else (0, 0, 0, 0)

/-- `GetCostMapData()`: a matrix of the dimensions of `map_data`, filled by the two
loops over `map_data.rows()` and `map_data.cols()`; `none` when a read `map_data(x, y)`
is outside the stored coefficients, which a well-formed matrix excludes. -/
def GetCostMapData (g : OccupancyMap) : Option (EigenMatrix Vector4i) := do
  let res ← forRange g.map_data.rows fun x =>
    (forRange g.map_data.cols fun y =>
      (g.map_data.coeff x y).map fun data => [costColor data]).map fun row => [row]
  pure { rows := g.map_data.rows, cols := g.map_data.cols, coeffs := res }

/-! ### Save -/

/-- The byte that `Save` writes for a cell: the comparisons of the `int` cell with the
`double` thresholds. -/
def saveByte (cfg : MapConfig) (v : Int) : Nat :=
  if v ≥ 0 ∧ (v : ℚ) ≤ cfg.free_thresh then 254
  else if (v : ℚ) ≥ cfg.occupied_thresh then 0
  else 205

/-- The sample bytes that the two loops of `Save` write, `y` below `height()` and `x`
below `width()`, both compared as `unsigned int`; `none` when a read `map_data(y, x)`
is outside the matrix. -/
def saveSamples (g : OccupancyMap) : Option (List Nat) :=
  forRange (toUInt g.height) fun y =>
    forRange (toUInt g.width) fun x =>
      (g.map_data.coeff y x).map fun v => [saveByte g.map_config v]

/-- A raster file as `Save` writes it: the values printed into the header and the
sample bytes that follow it. -/
structure PgmFile where
  resolution : ℚ
  width : Int
  height : Int
  maxVal : Int
  samples : List Nat
  deriving DecidableEq, Repr

/-- What `Save` leaves behind: the grid afterwards and the two files, each with its
path. -/
structure SaveResult where
  map : OccupancyMap
  pgm : Option (String × PgmFile)
  yaml : Option (String × Option YamlDoc)
  deriving DecidableEq, Repr

/-- `Save(map_name)`; `pgmOpens` and `yamlOpens` tell whether the two files can be
opened for writing. `none` when the sample loop reads outside `map_data`. -/
def Save (g : OccupancyMap) (map_name : String) (pgmOpens yamlOpens : Bool) :
    Option SaveResult :=
  let mapdatafile := map_name ++ ".pgm"
  if !pgmOpens then some { map := g, pgm := none, yaml := none }
  else do
    let samples ← saveSamples g
    let out : PgmFile :=
      { resolution := g.map_config.resolution, width := g.width, height := g.height,
        maxVal := 255, samples := samples }
    let mapmetadatafile := map_name ++ ".yaml"
    let map_name_rel := String.mk (pathStem map_name.data)
    let g1 := { g with map_config := { g.map_config with
                  image := "./" ++ map_name_rel ++ ".pgm" } }
    pure { map := g1, pgm := some (mapdatafile, out),
           yaml := (g1.map_config.Save yamlOpens).map fun d => (mapmetadatafile, d) }

/-! ### Load -/

/-- `isspace` in the classic locale: the bytes that formatted extraction skips. -/
def isspace (b : Nat) : Bool :=
  b = 32 || (decide (9 ≤ b) && decide (b ≤ 13))

/-- The extraction `file >> pixel` into an `int8_t`: leading whitespace is skipped and
one byte is read; at the end of the stream `pixel` keeps its value. The result is the
new `pixel` and the rest of the stream. -/
def extractInt8 (pixel : Int) (s : List Nat) : Int × List Nat :=
  match s.dropWhile isspace with
  | [] => (pixel, [])
  | b :: rest => (toInt8 b, rest)

/-- The branch chain of `Load` on one extracted `pixel`, with `map_cell` an `int8_t`. -/
def loadCell (pixel : Int) : Int :=
  if pixel = 0 then wrapInt8 OCC_GRID_OCCUPIED
  else if pixel = 205 then wrapInt8 OCC_GRID_UNKNOWN
  else if pixel = 254 then wrapInt8 OCC_GRID_FREE
  else wrapInt8 OCC_GRID_UNKNOWN

/-- The inner loop of `Load`, `j` from `0` below `width`: the cells of one row and the
rest of the stream. -/
def readRow : Nat → List Nat → List Int × List Nat
  | 0, s => ([], s)
  | n + 1, s =>
    let (pixel, s1) := extractInt8 (-2) s
    let (cells, s2) := readRow n s1
    (loadCell pixel :: cells, s2)

/-- The outer loop of `Load`, `i` from `0` below `height`. -/
def readRows : Nat → Nat → List Nat → List (List Int) × List Nat
  | 0, _, s => ([], s)
  | h + 1, w, s =>
    let (row, s1) := readRow w s
    let (rows, s2) := readRows h w s1
    (row :: rows, s2)

/-- An opened raster after its header has been read (the two `getline` and the
extraction of `width`, `height` and `maxVal`): the three numbers and the bytes that
remain in the stream. -/
structure PgmStream where
  width : Nat
  height : Nat
  maxVal : Int
  rest : List Nat
  deriving DecidableEq, Repr

/-- The files `Load` can see: the document of a descriptor path and the stream of an
image path, `none` where the file cannot be opened. -/
structure Files where
  yaml : String → Option YamlDoc
  pgm : String → Option PgmStream

/-- `Load(yaml_path)`: the returned flag and the grid afterwards. -/
def Load (g : OccupancyMap) (yaml_path : String) (fs : Files) : Bool × OccupancyMap :=
  match MapConfig.Load g.map_config yaml_path (fs.yaml yaml_path) with
  | (false, cfg) => (false, { g with map_config := cfg })
  | (true, cfg) =>
    let g1 := { g with map_config := cfg }
    match fs.pgm cfg.image with
    | some file =>
      let (cells, _) := readRows file.height file.width file.rest
      (true, { g1 with rows := file.height, cols := file.width,
                       map_data := { rows := file.height, cols := file.width,
                                     coeffs := cells } })
    | none => (true, g1)

/-! ## Specification-side definitions -/

/-- The shape invariant of a grid: `map_data` is a matrix of `rows` rows and `cols`
columns. -/
def ShapeOK (g : OccupancyMap) : Prop :=
  g.map_data.WF ∧ (g.map_data.rows : Int) = g.rows ∧ (g.map_data.cols : Int) = g.cols

instance (g : OccupancyMap) : Decidable (ShapeOK g) := by
  unfold ShapeOK
  exact inferInstance

/-- The reference rule of the specification for the byte of a value: `254` on
`[0, free_thresh]`, else `0` from `occupied_thresh` upward, else `205`. -/
def thresholdRule (free_thresh occupied_thresh v : ℚ) : Nat :=
  if 0 ≤ v ∧ v ≤ free_thresh then 254
  else if occupied_thresh ≤ v then 0
  else 205

/-- The colour ramp of the specification, as an ordered table of buckets: a lower bound,
an upper bound with its inclusiveness (`none` for unbounded), and the colour. -/
def colourBuckets : List (Int × Option (Int × Bool) × Vector4i) :=
  [ (100, none, (255, 0, 255, 50)),
    (90, some (100, false), (102, 255, 255, 50)),
    (70, some (90, true), (255, 0, 51, 50)),
    (60, some (70, true), (190, 40, 26, 50)),
    (50, some (60, false), (190, 31, 88, 50)),
    (40, some (50, false), (190, 37, 118, 50)),
    (30, some (40, false), (190, 42, 153, 50)),
    (20, some (30, false), (190, 53, 179, 50)),
    (10, some (20, false), (176, 60, 190, 50)) ]

/-- Whether a value lies in a bucket of the ramp. -/
def inBucket (v : Int) (b : Int × Option (Int × Bool) × Vector4i) : Bool :=
  decide (b.1 ≤ v) &&
    match b.2.1 with
    | none => true
    | some (hi, true) => decide (v ≤ hi)
    | some (hi, false) => decide (v < hi)

/-- The colour of the specification for a value: that of the first bucket of the ramp
that contains it, fully transparent when there is none. -/
def rampColour (v : Int) : Vector4i :=
  match colourBuckets.find? (inBucket v) with
  | some b => b.2.2
  | none => (0, 0, 0, 0)

/-- What the header extraction of `Load` makes of a raster file written by `Save`: the
header `P5`, a comment line, `width height` and `255` are consumed, the line end after
`255` and the samples remain. Defined for non-negative dimensions. -/
def PgmFile.reopen (f : PgmFile) : Option PgmStream :=
  if 0 ≤ f.width ∧ 0 ≤ f.height then
    some { width := f.width.toNat, height := f.height.toNat, maxVal := f.maxVal,
           rest := 10 :: f.samples }
  else none

/-- The cell array that decoding yields from the raster that `Save` writes: `Save`, the
header extraction, then the two loops of `Load` over the samples. -/
def saveThenDecode (g : OccupancyMap) (map_name : String) : Option MatrixXi := do
  let r ← Save g map_name true true
  let out ← r.pgm
  let file ← out.2.reopen
  pure { rows := file.height, cols := file.width,
         coeffs := (readRows file.height file.width file.rest).1 }

/-- The descriptor of the example of the specification: `resolution = 0.1`,
`origin = [0, 0, 0]`, with the thresholds and the image name `map.pgm`. -/
def exampleDoc : YamlDoc :=
  { resolution := some (1 / 10), negate := some 0, occupied_thresh := some (13 / 20),
    free_thresh := some (1 / 4), origin := some [0, 0, 0], image := some "map.pgm" }

/-- The files of the example of the specification: the descriptor `maps/map.yaml` and
beside it the `2 x 2` raster with the sample bytes `0, 205, 254, 205`. -/
def exampleFiles : Files :=
  { yaml := fun p => if p = "maps/map.yaml" then some exampleDoc else none,
    pgm := fun p =>
      if p = "maps/map.pgm" then
        some { width := 2, height := 2, maxVal := 255, rest := [10, 0, 205, 254, 205] }
      else none }

/-- A `1 x 1` grid whose only cell is `UNKNOWN = -1`, with the default thresholds. -/
def unknownCellGrid : OccupancyMap :=
  { map_config := MapConfig.default, rows := 1, cols := 1,
    map_data := { rows := 1, cols := 1, coeffs := [[-1]] } }

/-- A `2 x 3` grid with the default configuration. -/
def sampleGrid : OccupancyMap :=
  { map_config := MapConfig.default, rows := 2, cols := 3,
    map_data := { rows := 2, cols := 3, coeffs := [[0, 100, -1], [95, 70, 10]] } }

/-- An `8 x 8` grid of free cells with `resolution = 0.1` and `origin = (0, 0, 0)`. -/
def tenthGrid : OccupancyMap :=
  mk5 8 8 (0, 0, 0) (1 / 10)
    { rows := 8, cols := 8, coeffs := List.replicate 8 (List.replicate 8 0) }

/-- A `10 x 10` grid of free cells with `resolution = 1` and `origin = (0, 0, 0)`. -/
def unitGrid : OccupancyMap :=
  mk5 10 10 (0, 0, 0) 1
    { rows := 10, cols := 10, coeffs := List.replicate 10 (List.replicate 10 0) }

/-- A grid with `origin = (1.0, 1.0, 0)` and `resolution = 0.5`. -/
def halfGrid : OccupancyMap :=
  mk5 4 6 (1, 1, 0) (1 / 2)
    { rows := 4, cols := 6, coeffs := List.replicate 4 (List.replicate 6 0) }

/-- A `1 x 1` matrix. -/
def oneCellMatrix : MatrixXi := { rows := 1, cols := 1, coeffs := [[100]] }

/-- A descriptor whose `resolution` is `0.5` and whose `negate` key is invalid. -/
def invalidNegateDoc : YamlDoc :=
  { resolution := some (1 / 2), negate := none, occupied_thresh := some (13 / 20),
    free_thresh := some (1 / 4), origin := some [0, 0, 0], image := some "map.pgm" }

/-- The files with the descriptor `invalidNegateDoc` at `maps/map.yaml`. -/
def invalidNegateFiles : Files :=
  { yaml := fun p => if p = "maps/map.yaml" then some invalidNegateDoc else none,
    pgm := fun _ => none }

/-- The default-constructed grid with `resolution` replaced by `0.5`. -/
def halfResolutionGrid : OccupancyMap :=
  { OccupancyMap.default with
    map_config := { MapConfig.default with resolution := 1 / 2 } }

/-- The files with the descriptor `exampleDoc` at `maps/map.yaml` and no image. -/
def missingImageFiles : Files :=
  { yaml := fun p => if p = "maps/map.yaml" then some exampleDoc else none,
    pgm := fun _ => none }

/-- A `2 x 2` matrix with two different rows. -/
def twoRowMatrix : MatrixXi := { rows := 2, cols := 2, coeffs := [[1, 2], [3, 4]] }

/-- The components of a path: the texts between separators, without the empty ones and
the `.` ones, which name no directory step. -/
def pathComponents (p : List Char) : List (List Char) :=
  (p.foldr (fun c acc =>
      if c = '/' then [] :: acc
      else match acc with
        | [] => [[c]]
        | h :: t => (c :: h) :: t) [[]]).filter fun comp => comp ≠ [] ∧ comp ≠ ['.']

/-- Two paths name the same file lexically: both absolute or both relative, with the same
components. -/
def sameFile (p q : String) : Bool :=
  pathIsAbsolute p.data == pathIsAbsolute q.data &&
    pathComponents p.data == pathComponents q.data

/-- The image path that `MapConfig::Load` resolves from the descriptor that `Save` wrote
for `map_name`, when both files could be written. -/
def savedImagePath (g : OccupancyMap) (map_name : String) : Option String := do
  let r ← Save g map_name true true
  let out ← r.yaml
  let doc ← out.2
  let loaded := MapConfig.Load MapConfig.default out.1 (some doc)
  if loaded.1 then some loaded.2.image else none

/-- The path of the raster that `Save` wrote for `map_name`. -/
def savedRasterPath (g : OccupancyMap) (map_name : String) : Option String := do
  let r ← Save g map_name true true
  let out ← r.pgm
  pure out.1

end OccupancyMap

end basic

/-! ## The display item `DisplayOccMap` (`display_occ_map.cpp`) -/

namespace Display

open basic

/-- The value `QColor(Qt::black).rgb()`. -/
def Qt_black : Nat := 0xff000000

/-- The value `QColor(Qt::gray).rgb()`: the colour `(160, 160, 164)`. -/
def Qt_gray : Nat := 0xffa0a0a4

/-- The value `QColor(Qt::white).rgb()`. -/
def Qt_white : Nat := 0xffffffff

/-- A `QImage` of `QImage::Format_RGB32`: its dimensions and its scan lines, the pixel
`(x, y)` being `scanLines[y][x]`. -/
structure QImage where
  width : Nat
  height : Nat
  scanLines : List (List Nat)
  deriving DecidableEq, Repr

/-- The shape discipline of an image: `height` scan lines of `width` pixels. -/
def QImage.WF (img : QImage) : Prop :=
  img.scanLines.length = img.height ∧ ∀ r ∈ img.scanLines, r.length = img.width

instance (img : QImage) : Decidable img.WF := by
  unfold QImage.WF
  exact inferInstance

/-- The constructor `QImage(width, height, QImage::Format_RGB32)`: a null image unless both
dimensions are positive; the pixel data is uninitialised, `init x y` stands for what the
memory holds. -/
def QImage.create (w h : Int) (init : Nat → Nat → Nat) : QImage :=
  if 0 < w ∧ 0 < h then
    { width := w.toNat, height := h.toNat,
      scanLines := (List.range h.toNat).map fun y => (List.range w.toNat).map fun x => init x y }
  else { width := 0, height := 0, scanLines := [] }

/-- The call `QImage::setPixel(x, y, rgb)` on a 32-bit RGB image: the opaque colour is
stored; coordinates outside the image are refused with a warning. -/
def QImage.setPixel (img : QImage) (x y : Int) (rgb : Nat) : QImage :=
  if x < 0 ∨ x ≥ img.width ∨ y < 0 ∨ y ≥ img.height then img
  else { img with scanLines := setAt img.scanLines y.toNat x.toNat (0xff000000 ||| rgb) }

/-- The call `QImage::pixel(x, y)` on a 32-bit RGB image: the stored colour, opaque;
outside the image a warning and the value `12345`. -/
def QImage.pixel (img : QImage) (x y : Int) : Nat :=
  if x < 0 ∨ x ≥ img.width ∨ y < 0 ∨ y ≥ img.height then 12345
  else 0xff000000 ||| (getAt img.scanLines y.toNat x.toNat).getD 0

/-- The members of `DisplayOccMap` that the functions below read or write. -/
structure DisplayOccMap where
  map_data_ : OccupancyMap
  map_image_ : QImage
  deriving DecidableEq, Repr

/-- The payload of the `std::any` passed to `UpdateData`. -/
inductive AnyData where
  | occupancyMap (m : OccupancyMap)
  | other

namespace DisplayOccMap

/-- The colour that `ParseOccupyMap` chooses for a cell: the branch chain on the `double`
`map_value`. -/
def cellColor (v : Int) : Nat :=
  let map_value : ℚ := v
  if map_value > 0 then Qt_black
  else if map_value < 0 then Qt_gray
  else Qt_white

/-- `ParseOccupyMap()`: a fresh image of `Cols() x Rows()` pixels, then the two loops, `i`
below `Cols()` and `j` below `Rows()`; `none` when a read `map_data_(j, i)` is outside
the matrix. -/
def ParseOccupyMap (d : DisplayOccMap) (init : Nat → Nat → Nat) : Option DisplayOccMap :=
  let map_image_ := QImage.create d.map_data_.Cols d.map_data_.Rows init
  (forState d.map_data_.Cols.toNat (fun i img =>
    forState d.map_data_.Rows.toNat (fun j img =>
      (d.map_data_.map_data.coeff j i).map fun v =>
        img.setPixel i j (cellColor v)) img) map_image_).map
    fun img => { d with map_image_ := img }

/-- `UpdateData(data)`: the returned flag and the item afterwards. -/
def UpdateData (d : DisplayOccMap) (data : AnyData) (init : Nat → Nat → Nat) :
    Option (Bool × DisplayOccMap) :=
  let d1 :=
    match data with
    | .occupancyMap m => { d with map_data_ := m }
    | .other => d
  (ParseOccupyMap d1 init).map fun d2 => (true, d2)

/-- `GetOccupancyMap()`: a copy of `map_data_`, then the two loops, `i` below the width
and `j` below the height of the image; `none` when an assignment `map(j, i)` is outside
the matrix. -/
def GetOccupancyMap (d : DisplayOccMap) : Option OccupancyMap :=
  forState d.map_image_.width (fun i map =>
    forState d.map_image_.height (fun j map =>
      let pixelValue := d.map_image_.pixel i j
      if pixelValue = Qt_black then map.assignCell j i 100
      else if pixelValue = Qt_gray then map.assignCell j i (-1)
      else map.assignCell j i 0) map) d.map_data_

/-- The canonical value of a cell by its sign: `100` if positive, `-1` if negative, `0`
if zero. -/
def signCell (v : Int) : Int :=
  if v > 0 then 100 else if v < 0 then -1 else 0

/-- The grid with every cell replaced by its canonical value. -/
def canonical (m : OccupancyMap) : OccupancyMap :=
  { m with map_data :=
      { m.map_data with coeffs := m.map_data.coeffs.map (List.map signCell) } }

/-- A display item that has not been given a map. -/
def emptyDisplay : DisplayOccMap :=
  { map_data_ := OccupancyMap.default, map_image_ := QImage.create 0 0 fun _ _ => 0 }

end DisplayOccMap

end Display

namespace basic

/-! ## General lemmas -/

theorem forRange_take {α β : Type} (l : List α) (body : Nat → Option (List β))
    (f : α → List β) (h : ∀ k a, l[k]? = some a → body k = some (f a)) :
    ∀ n, n ≤ l.length → forRange n body = some ((l.take n).map f).flatten := by
  intro n
  induction n with
  | zero => intro _; simp [forRange]
  | succ n ih =>
    intro hn
    have hlt : n < l.length := hn
    have hk : l[n]? = some l[n] := List.getElem?_eq_getElem hlt
    have e : l.take (n + 1) = l.take n ++ [l[n]] := by
      rw [List.take_succ, hk]; rfl
    rw [forRange, ih (Nat.le_of_lt hlt), h n _ hk, e, List.map_append, List.flatten_append]
    simp

theorem forRange_list {α β : Type} (l : List α) (body : Nat → Option (List β))
    (f : α → List β) (h : ∀ k a, l[k]? = some a → body k = some (f a)) :
    forRange l.length body = some (l.map f).flatten := by
  have := forRange_take l body f h l.length (Nat.le_refl _)
  simpa using this

theorem flatten_map_singleton {α β : Type} (l : List α) (f : α → β) :
    (l.map fun a => [f a]).flatten = l.map f := by
  induction l with
  | nil => rfl
  | cons a l ih => simp [ih]

theorem flatten_getElem? {α : Type} (c : Nat) :
    ∀ (ll : List (List α)), (∀ r ∈ ll, r.length = c) → ∀ y x, x < c →
      ll.flatten[y * c + x]? = ll[y]?.bind fun r => r[x]? := by
  intro ll
  induction ll with
  | nil => intro _ y x _; simp
  | cons r ll ih =>
    intro h y x hx
    have hr : r.length = c := h r (List.mem_cons_self _ _)
    cases y with
    | zero =>
      simp only [List.flatten_cons, Nat.zero_mul, Nat.zero_add, List.getElem?_cons_zero,
        Option.some_bind]
      rw [List.getElem?_append_left (by omega)]
    | succ y =>
      simp only [List.flatten_cons, List.getElem?_cons_succ]
      rw [List.getElem?_append_right (by rw [hr, Nat.succ_mul]; omega)]
      have e : (y + 1) * c + x - r.length = y * c + x := by
        rw [hr, Nat.succ_mul]; omega
      rw [e]
      exact ih (fun r' hr' => h r' (List.mem_cons_of_mem _ hr')) y x hx

theorem length_flatten_uniform {α : Type} (c : Nat) :
    ∀ (ll : List (List α)), (∀ r ∈ ll, r.length = c) → ll.flatten.length = ll.length * c := by
  intro ll
  induction ll with
  | nil => intro _; simp
  | cons r ll ih =>
    intro h
    have hr : r.length = c := h r (List.mem_cons_self _ _)
    simp only [List.flatten_cons, List.length_append, List.length_cons, hr,
      ih (fun r' hr' => h r' (List.mem_cons_of_mem _ hr')), Nat.succ_mul]
    omega

namespace OccupancyMap

/-! ## Lemmas on the loops -/

theorem coeff_some {α : Type} {m : EigenMatrix α} {i j : Nat} {v : α}
    (h : m.coeff i j = some v) : ∃ r, m.coeffs[i]? = some r ∧ r[j]? = some v := by
  unfold EigenMatrix.coeff at h
  cases hr : m.coeffs[i]? with
  | none => simp [hr] at h
  | some r => exact ⟨r, rfl, by simpa [hr] using h⟩

theorem forRange_row {β : Type} (m : MatrixXi) (f : Int → β) (y : Nat) (r : List Int)
    (hwf : m.WF) (hr : m.coeffs[y]? = some r) :
    (forRange m.cols fun x => (m.coeff y x).map fun v => [f v]) = some (r.map f) := by
  have hlen : r.length = m.cols := hwf.2 r (List.getElem?_mem hr)
  have := forRange_list r (fun x => (m.coeff y x).map fun v => [f v]) (fun v => [f v])
    (by intro k a hk; simp [EigenMatrix.coeff, hr, hk])
  rw [hlen, flatten_map_singleton] at this
  exact this

theorem toUInt_natCast (n : Nat) (h : (n : Int) ≤ 2147483647) : toUInt (n : Int) = n := by
  unfold toUInt
  omega

theorem saveSamples_eq (g : OccupancyMap) (hs : ShapeOK g) (hr : g.rows ≤ 2147483647)
    (hc : g.cols ≤ 2147483647) :
    saveSamples g
      = some (g.map_data.coeffs.map fun r => r.map (saveByte g.map_config)).flatten := by
  obtain ⟨hwf, hrows, hcols⟩ := hs
  have e1 : toUInt g.height = g.map_data.coeffs.length := by
    rw [hwf.1]; unfold height; rw [← hrows]; exact toUInt_natCast _ (by omega)
  have e2 : toUInt g.width = g.map_data.cols := by
    unfold width; rw [← hcols]; exact toUInt_natCast _ (by omega)
  unfold saveSamples
  rw [e1, e2]
  exact forRange_list _ _ _ (fun y r hy => forRange_row g.map_data _ y r hwf hy)

theorem saveByte_eq_thresholdRule (cfg : MapConfig) (v : Int) :
    saveByte cfg v = thresholdRule cfg.free_thresh cfg.occupied_thresh (v : ℚ) := by
  unfold saveByte thresholdRule
  simp only [ge_iff_le, Int.cast_nonneg]

theorem costColor_eq_rampColour (v : Int) : costColor v = rampColour v := by
  have hcases : v < 10 ∨ (10 ≤ v ∧ v < 100) ∨ 100 ≤ v := by omega
  rcases hcases with h | ⟨h1, h2⟩ | h
  · have a1 : ¬ 100 ≤ v := by omega
    have a2 : ¬ 90 ≤ v := by omega
    have a3 : ¬ 70 ≤ v := by omega
    have a4 : ¬ 60 ≤ v := by omega
    have a5 : ¬ 50 ≤ v := by omega
    have a6 : ¬ 40 ≤ v := by omega
    have a7 : ¬ 30 ≤ v := by omega
    have a8 : ¬ 20 ≤ v := by omega
    have a9 : ¬ 10 ≤ v := by omega
    simp [costColor, rampColour, colourBuckets, inBucket, List.find?, a1, a2, a3, a4, a5,
      a6, a7, a8, a9]
  · interval_cases v <;> rfl
  · simp [costColor, rampColour, colourBuckets, inBucket, List.find?, h]

/-! ## C1: decoding of a raster by `Load` -/

/-- C1, evaluated on the example of the specification: loading the `2 x 2` raster with
the sample bytes `0, 205, 254, 205` succeeds with `rows = 2` and `cols = 2`, but the
cells are `[[100, 0], [0, 0]]`, not `[[100, -1], [0, -1]]`: the byte `205` is decoded to
`0`, which is not negative, because the `int8_t` pixel never equals `205` or `254` and
`OCC_GRID_UNKNOWN` is `0`. -/
theorem C1_load_example_decodes_unknown_as_zero :
    (Load OccupancyMap.default "maps/map.yaml" exampleFiles).1 = true ∧
    (Load OccupancyMap.default "maps/map.yaml" exampleFiles).2.rows = 2 ∧
    (Load OccupancyMap.default "maps/map.yaml" exampleFiles).2.cols = 2 ∧
    (Load OccupancyMap.default "maps/map.yaml" exampleFiles).2.map_data.coeffs
      = [[100, 0], [0, 0]] ∧
    (Load OccupancyMap.default "maps/map.yaml" exampleFiles).2.map_data.coeffs
      ≠ [[100, -1], [0, -1]] ∧
    loadCell (toInt8 205) = 0 ∧ ¬ loadCell (toInt8 205) < 0 := by
  decide

/-! ## C2: round trip through the file format -/

/-- C2, evaluated on a grid with one `UNKNOWN` cell: the grid satisfies the shape
invariant, its cell is `-1` and its thresholds `0.65` and `0.25` lie strictly between
`0` and `1`; `Save` writes the byte `205` for the cell and decoding that raster as `Load`
does yields the cell `0`, so the round trip does not reproduce the grid. -/
theorem C2_round_trip_loses_unknown :
    ShapeOK unknownCellGrid ∧
    unknownCellGrid.map_data.coeffs = [[-1]] ∧
    (0 < unknownCellGrid.map_config.free_thresh ∧
      unknownCellGrid.map_config.free_thresh < 1) ∧
    (0 < unknownCellGrid.map_config.occupied_thresh ∧
      unknownCellGrid.map_config.occupied_thresh < 1) ∧
    saveSamples unknownCellGrid = some [205] ∧
    saveThenDecode unknownCellGrid "maps/map"
      = some { rows := 1, cols := 1, coeffs := [[0]] } ∧
    saveThenDecode unknownCellGrid "maps/map" ≠ some unknownCellGrid.map_data := by
  have hs : saveSamples unknownCellGrid = some [205] := by
    simp [saveSamples, unknownCellGrid, forRange, toUInt, height, width, EigenMatrix.coeff,
      saveByte, MapConfig.default]
    norm_num
  have hd : saveThenDecode unknownCellGrid "maps/map"
      = some { rows := 1, cols := 1, coeffs := [[0]] } := by
    simp only [saveThenDecode, Save, hs]
    rfl
  refine ⟨by decide, rfl, ?_, ?_, hs, hd, ?_⟩
  · simp [unknownCellGrid, MapConfig.default]; norm_num
  · simp [unknownCellGrid, MapConfig.default]; norm_num
  · rw [hd]; decide

/-! ## C3: the samples written by `Save` -/

/-- C3: for a grid whose cell array has shape `rows x cols` (with `rows` and `cols`
values of an `int`), `Save` writes the raster `map_name.pgm` with exactly `rows * cols`
sample bytes; the byte at position `y * cols + x` (row-major, row `0` first) is the
reference rule applied to the cell `(y, x)`: `254` if `0 <= v <= free_thresh`, otherwise
`0` if `v >= occupied_thresh`, otherwise `205`. With `free_thresh = 0.25` and
`occupied_thresh = 0.65` the reference rule gives `205` for `0.5`, `254` for `0.1` and
`0` for `0.9`. -/
theorem C3_save_writes_row_major_threshold_bytes (g : OccupancyMap) (map_name : String)
    (yamlOpens : Bool) (hs : ShapeOK g) (hr : g.rows ≤ 2147483647)
    (hc : g.cols ≤ 2147483647) :
    (∃ r samples, Save g map_name true yamlOpens = some r ∧
      r.pgm = some (map_name ++ ".pgm",
        { resolution := g.map_config.resolution, width := g.cols, height := g.rows,
          maxVal := 255, samples := samples }) ∧
      samples.length = g.map_data.rows * g.map_data.cols ∧
      ∀ y x v, g.map_data.coeff y x = some v →
        samples[y * g.map_data.cols + x]?
          = some (thresholdRule g.map_config.free_thresh g.map_config.occupied_thresh v)) ∧
    thresholdRule (1 / 4) (13 / 20) (1 / 2) = 205 ∧
    thresholdRule (1 / 4) (13 / 20) (1 / 10) = 254 ∧
    thresholdRule (1 / 4) (13 / 20) (9 / 10) = 0 := by
  have hsamples := saveSamples_eq g hs hr hc
  obtain ⟨hwf, _, _⟩ := hs
  have huni : ∀ r ∈ g.map_data.coeffs.map (fun r => r.map (saveByte g.map_config)),
      r.length = g.map_data.cols := by
    intro r hr'
    obtain ⟨r0, hr0, rfl⟩ := List.mem_map.mp hr'
    simpa using hwf.2 r0 hr0
  have hsave : Save g map_name true yamlOpens = some
      { map := { g with map_config := { g.map_config with
                  image := "./" ++ String.mk (pathStem map_name.data) ++ ".pgm" } },
        pgm := some (map_name ++ ".pgm",
          { resolution := g.map_config.resolution, width := g.cols, height := g.rows,
            maxVal := 255,
            samples := (g.map_data.coeffs.map fun r =>
              r.map (saveByte g.map_config)).flatten }),
        yaml := (MapConfig.Save { g.map_config with
                  image := "./" ++ String.mk (pathStem map_name.data) ++ ".pgm" }
                  yamlOpens).map fun d => (map_name ++ ".yaml", d) } := by
    simp only [Save, hsamples]
    rfl
  refine ⟨⟨_, _, hsave, rfl, ?_, ?_⟩, ?_, ?_, ?_⟩
  · rw [length_flatten_uniform _ _ huni, List.length_map, hwf.1]
  · intro y x v hv
    obtain ⟨r, hry, hrx⟩ := coeff_some hv
    have hx : x < g.map_data.cols := by
      have := hwf.2 r (List.getElem?_mem hry)
      have hx' : x < r.length := (List.getElem?_eq_some.mp hrx).1
      omega
    rw [flatten_getElem? _ _ huni y x hx]
    simp [hry, hrx, saveByte_eq_thresholdRule]
  · unfold thresholdRule; norm_num
  · unfold thresholdRule; norm_num
  · unfold thresholdRule; norm_num

/-- C3 on the `2 x 3` sample grid. -/
theorem C3_save_writes_row_major_threshold_bytes_witness :
    ShapeOK sampleGrid ∧ sampleGrid.rows ≤ 2147483647 ∧ sampleGrid.cols ≤ 2147483647 ∧
    ((∃ r samples, Save sampleGrid "maps/map" true true = some r ∧
      r.pgm = some ("maps/map" ++ ".pgm",
        { resolution := sampleGrid.map_config.resolution, width := sampleGrid.cols,
          height := sampleGrid.rows, maxVal := 255, samples := samples }) ∧
      samples.length = sampleGrid.map_data.rows * sampleGrid.map_data.cols ∧
      ∀ y x v, sampleGrid.map_data.coeff y x = some v →
        samples[y * sampleGrid.map_data.cols + x]?
          = some (thresholdRule sampleGrid.map_config.free_thresh
              sampleGrid.map_config.occupied_thresh v)) ∧
    thresholdRule (1 / 4) (13 / 20) (1 / 2) = 205 ∧
    thresholdRule (1 / 4) (13 / 20) (1 / 10) = 254 ∧
    thresholdRule (1 / 4) (13 / 20) (9 / 10) = 0) :=
  ⟨by decide, by decide, by decide,
    C3_save_writes_row_major_threshold_bytes sampleGrid "maps/map" true (by decide)
      (by decide) (by decide)⟩

/-! ## C4: the colour ramp of `GetCostMapData` -/

/-- C4: `GetCostMapData` returns a matrix of the shape of the cell array whose entry
`(i, j)` is the colour of the cell `(i, j)` under the first-match-wins ramp of the
specification; in particular `90` maps to `(102,255,255,50)`, `70` to `(255,0,51,50)`
and `-5` to `(0,0,0,0)`. -/
theorem C4_cost_map_is_colour_ramp (g : OccupancyMap) (hwf : g.map_data.WF) :
    (∃ res, GetCostMapData g = some res ∧ res.WF ∧
      res.rows = g.map_data.rows ∧ res.cols = g.map_data.cols ∧
      ∀ i j, res.coeff i j = (g.map_data.coeff i j).map rampColour) ∧
    rampColour 90 = (102, 255, 255, 50) ∧ rampColour 70 = (255, 0, 51, 50) ∧
    rampColour (-5) = (0, 0, 0, 0) := by
  have hrows : (forRange g.map_data.rows fun x =>
      (forRange g.map_data.cols fun y =>
        (g.map_data.coeff x y).map fun data => [costColor data]).map fun row => [row])
      = some (g.map_data.coeffs.map fun r => r.map costColor) := by
    have := forRange_list g.map_data.coeffs
      (fun x => (forRange g.map_data.cols fun y =>
        (g.map_data.coeff x y).map fun data => [costColor data]).map fun row => [row])
      (fun r => [r.map costColor])
      (by intro k r hk; beta_reduce; rw [forRange_row g.map_data costColor k r hwf hk]; rfl)
    rw [hwf.1, flatten_map_singleton] at this
    exact this
  refine ⟨⟨⟨g.map_data.rows, g.map_data.cols, g.map_data.coeffs.map fun r => r.map costColor⟩,
    ?_, ?_, rfl, rfl, ?_⟩, by decide, by decide, by decide⟩
  · simp only [GetCostMapData, hrows]
    rfl
  · refine ⟨by simpa using hwf.1, ?_⟩
    intro r hr
    obtain ⟨r0, hr0, rfl⟩ := List.mem_map.mp hr
    simpa using hwf.2 r0 hr0
  · intro i j
    simp only [EigenMatrix.coeff, List.getElem?_map]
    cases g.map_data.coeffs[i]? with
    | none => rfl
    | some r =>
      simp only [Option.map_some', Option.some_bind, List.getElem?_map]
      cases r[j]? with
      | none => rfl
      | some v => simp [costColor_eq_rampColour]

/-- C4 on the `2 x 3` sample grid. -/
theorem C4_cost_map_is_colour_ramp_witness :
    sampleGrid.map_data.WF ∧
    ((∃ res, GetCostMapData sampleGrid = some res ∧ res.WF ∧
      res.rows = sampleGrid.map_data.rows ∧ res.cols = sampleGrid.map_data.cols ∧
      ∀ i j, res.coeff i j = (sampleGrid.map_data.coeff i j).map rampColour) ∧
    rampColour 90 = (102, 255, 255, 50) ∧ rampColour 70 = (255, 0, 51, 50) ∧
    rampColour (-5) = (0, 0, 0, 0)) :=
  ⟨by decide, C4_cost_map_is_colour_ramp sampleGrid (by decide)⟩

/-! ## C5, C6: world coordinates and indices -/

/-- C5, evaluated at `resolution = 0.1`, `origin = (0, 0)` and the valid index
`(col, row) = (3, 0)` of an `8 x 8` grid: `idx2xy` gives the point `(0.3, 0)`, and
`xy2idx` of that point is `(0, 0)`, not `(3, 0)`, because `round` is applied to the
difference `0.3` before the division by the resolution. -/
theorem C5_index_world_round_trip_fails :
    0 < tenthGrid.map_config.resolution ∧
    ((0 : Int) ≤ 3 ∧ (3 : Int) < tenthGrid.cols) ∧
    ((0 : Int) ≤ 0 ∧ (0 : Int) < tenthGrid.rows) ∧
    tenthGrid.idx2xy 3 0 = some (3 / 10, 0) ∧
    tenthGrid.xy2idx (3 / 10) 0 = some (0, 0) ∧
    ((tenthGrid.idx2xy 3 0).bind fun p => tenthGrid.xy2idx p.1 p.2) ≠ some (3, 0) := by
  have h1 : tenthGrid.idx2xy 3 0 = some (3 / 10, 0) := by
    simp [tenthGrid, mk5, MapConfig.mk2, idx2xy, originAt]
    norm_num
  have h2 : tenthGrid.xy2idx (3 / 10) 0 = some (0, 0) := by
    simp [tenthGrid, mk5, MapConfig.mk2, xy2idx, originAt, cround, toInt]
    norm_num
  refine ⟨?_, ⟨by decide, by decide⟩, ⟨by decide, by decide⟩, h1, h2, ?_⟩
  · simp [tenthGrid, mk5, MapConfig.mk2]
  · rw [h1]
    simp only [Option.some_bind, h2]
    decide

/-- C6, evaluated at `resolution = 0.1`, `origin = (0, 0)` and the world point
`(0.6, 0)` of an `8 x 8` grid: `inMap(x, y)` rounds the quotient to the column `6` and
returns true, while `xy2idx` rounds the difference and yields the column `10`, for
which `inMap(r, c)` returns false. -/
theorem C6_bounds_checks_disagree :
    0 < tenthGrid.map_config.resolution ∧
    tenthGrid.inMap (6 / 10) 0 = some true ∧
    tenthGrid.xy2idx (6 / 10) 0 = some (10, 0) ∧
    tenthGrid.inMapIdx 0 10 = false := by
  refine ⟨?_, ?_, ?_, by decide⟩
  · simp [tenthGrid, mk5, MapConfig.mk2]
  · simp [tenthGrid, mk5, MapConfig.mk2, inMap, originAt, cround, toInt]
    norm_num
  · simp [tenthGrid, mk5, MapConfig.mk2, xy2idx, originAt, cround, toInt]
    norm_num

/-! ## C7, C8: scene and grid poses -/

/-- C7, evaluated at `resolution = 1`, `origin = (0, 0)`, `rows = 10` and the pair
`(2, 3)`: `OccPose2xy(2, 3)` is `(word_x, word_y) = (7, 2)` and `xy2OccPose(7, 2)` is
`(scene_x, scene_y) = (8, 7)`, not `(2, 3)`; in the other direction `xy2OccPose(2, 3)`
is `(7, 2)` and `OccPose2xy(7, 2)` is `(8, 7)`, not `(2, 3)`. -/
theorem C7_occ_pose_not_inverse :
    0 < unitGrid.map_config.resolution ∧
    unitGrid.OccPose2xy 2 3 = some (7, 2) ∧
    unitGrid.xy2OccPose 7 2 = some (8, 7) ∧
    ((unitGrid.OccPose2xy 2 3).bind fun p => unitGrid.xy2OccPose p.1 p.2) ≠ some (2, 3) ∧
    ((unitGrid.xy2OccPose 2 3).bind fun p => unitGrid.OccPose2xy p.1 p.2) ≠ some (2, 3) := by
  have h1 : unitGrid.OccPose2xy 2 3 = some (7, 2) := by
    simp [unitGrid, mk5, MapConfig.mk2, OccPose2xy, originAt, height]
    norm_num
  have h2 : unitGrid.xy2OccPose 7 2 = some (8, 7) := by
    simp [unitGrid, mk5, MapConfig.mk2, xy2OccPose, originAt, height]
    norm_num
  have h3 : unitGrid.xy2OccPose 2 3 = some (7, 2) := by
    simp [unitGrid, mk5, MapConfig.mk2, xy2OccPose, originAt, height]
    norm_num
  refine ⟨?_, h1, h2, ?_, ?_⟩
  · simp [unitGrid, mk5, MapConfig.mk2]
  · rw [h1]
    simp only [Option.some_bind, h2]
    norm_num
  · rw [h3]
    simp only [Option.some_bind]
    simp [unitGrid, mk5, MapConfig.mk2, OccPose2xy, originAt, height]

/-- C8: for a grid with `resolution > 0` whose origin has its `x` and `y` entries,
`ScenePose2xy(sx, sy)` is `(sx * resolution + origin.x, (height - sy) * resolution +
origin.y)`, `xy2ScenePose` applied to it returns `(sx, sy)`, and `ScenePose2xy` applied
to `xy2ScenePose(x, y)` returns `(x, y)`, in exact arithmetic. -/
theorem C8_scene_pose_inverse (g : OccupancyMap) (hres : 0 < g.map_config.resolution)
    (ho : 2 ≤ g.map_config.origin.length) :
    (∃ o0 o1, g.map_config.origin[0]? = some o0 ∧ g.map_config.origin[1]? = some o1 ∧
      ∀ sx sy, g.ScenePose2xy sx sy
        = some (sx * g.map_config.resolution + o0,
                ((g.rows : ℚ) - sy) * g.map_config.resolution + o1)) ∧
    (∀ sx sy, ((g.ScenePose2xy sx sy).bind fun p => g.xy2ScenePose p.1 p.2)
      = some (sx, sy)) ∧
    (∀ x y, ((g.xy2ScenePose x y).bind fun p => g.ScenePose2xy p.1 p.2) = some (x, y)) := by
  have hne : g.map_config.resolution ≠ 0 := ne_of_gt hres
  have h0 : g.map_config.origin[0]? = some (g.map_config.origin[0]) :=
    List.getElem?_eq_getElem (by omega)
  have h1 : g.map_config.origin[1]? = some (g.map_config.origin[1]) :=
    List.getElem?_eq_getElem (by omega)
  refine ⟨⟨_, _, h0, h1, ?_⟩, ?_, ?_⟩
  · intro sx sy
    simp [ScenePose2xy, originAt, h0, h1, height]
  · intro sx sy
    simp only [ScenePose2xy, xy2ScenePose, originAt, h0, h1, height, Option.bind_eq_bind,
      Option.some_bind, Option.pure_def, Option.some.injEq, Prod.mk.injEq]
    constructor
    · field_simp
    · field_simp
  · intro x y
    simp only [ScenePose2xy, xy2ScenePose, originAt, h0, h1, height, Option.bind_eq_bind,
      Option.some_bind, Option.pure_def, Option.some.injEq, Prod.mk.injEq]
    constructor
    · field_simp
    · field_simp

/-- C8 on the grid with `origin = (1, 1)`, `resolution = 0.5` and `4` rows. -/
theorem C8_scene_pose_inverse_witness :
    0 < halfGrid.map_config.resolution ∧ 2 ≤ halfGrid.map_config.origin.length ∧
    ((∃ o0 o1, halfGrid.map_config.origin[0]? = some o0 ∧
        halfGrid.map_config.origin[1]? = some o1 ∧
      ∀ sx sy, halfGrid.ScenePose2xy sx sy
        = some (sx * halfGrid.map_config.resolution + o0,
                ((halfGrid.rows : ℚ) - sy) * halfGrid.map_config.resolution + o1)) ∧
    (∀ sx sy, ((halfGrid.ScenePose2xy sx sy).bind fun p => halfGrid.xy2ScenePose p.1 p.2)
      = some (sx, sy)) ∧
    (∀ x y, ((halfGrid.xy2ScenePose x y).bind fun p => halfGrid.ScenePose2xy p.1 p.2)
      = some (x, y))) :=
  ⟨by simp [halfGrid, mk5, MapConfig.mk2], by decide,
    C8_scene_pose_inverse halfGrid (by simp [halfGrid, mk5, MapConfig.mk2]) (by decide)⟩

/-! ## C9: the shape of the cell array -/

theorem readRow_length : ∀ (w : Nat) (s : List Nat), (readRow w s).1.length = w := by
  intro w
  induction w with
  | zero => intro s; rfl
  | succ n ih => intro s; simp [readRow, ih]

theorem readRows_shape (w : Nat) : ∀ (h : Nat) (s : List Nat),
    (readRows h w s).1.length = h ∧ ∀ r ∈ (readRows h w s).1, r.length = w := by
  intro h
  induction h with
  | zero => intro s; simp [readRows]
  | succ n ih =>
    intro s
    obtain ⟨h1, h2⟩ := ih (readRow w s).2
    refine ⟨by simp [readRows, h1], ?_⟩
    intro r hr
    simp only [readRows, List.mem_cons] at hr
    rcases hr with rfl | hr
    · exact readRow_length w s
    · exact h2 r hr

theorem Load_fst (g : OccupancyMap) (yaml_path : String) (fs : Files) :
    (g.Load yaml_path fs).1 = (MapConfig.Load g.map_config yaml_path (fs.yaml yaml_path)).1 := by
  unfold Load
  rcases hL : MapConfig.Load g.map_config yaml_path (fs.yaml yaml_path) with ⟨b, cfg⟩
  cases b
  · rfl
  · simp only
    cases fs.pgm cfg.image <;> rfl

theorem Load_snd_of_false (g : OccupancyMap) (yaml_path : String) (fs : Files)
    (h : (MapConfig.Load g.map_config yaml_path (fs.yaml yaml_path)).1 = false) :
    (g.Load yaml_path fs).2
      = { g with map_config :=
            (MapConfig.Load g.map_config yaml_path (fs.yaml yaml_path)).2 } := by
  unfold Load
  rcases hL : MapConfig.Load g.map_config yaml_path (fs.yaml yaml_path) with ⟨b, cfg⟩
  rw [hL] at h
  cases b
  · rfl
  · simp at h

theorem Load_snd_of_raster (g : OccupancyMap) (yaml_path : String) (fs : Files)
    (file : PgmStream)
    (h : (MapConfig.Load g.map_config yaml_path (fs.yaml yaml_path)).1 = true)
    (hf : fs.pgm (MapConfig.Load g.map_config yaml_path (fs.yaml yaml_path)).2.image
      = some file) :
    (g.Load yaml_path fs).2
      = { map_config := (MapConfig.Load g.map_config yaml_path (fs.yaml yaml_path)).2,
          rows := file.height, cols := file.width,
          map_data := { rows := file.height, cols := file.width,
                        coeffs := (readRows file.height file.width file.rest).1 } } := by
  unfold Load
  rcases hL : MapConfig.Load g.map_config yaml_path (fs.yaml yaml_path) with ⟨b, cfg⟩
  rw [hL] at h hf
  cases b
  · simp at h
  · simp only at hf
    simp only [hf]

/-- C9 as stated fails for `SetMapData`: the default-constructed grid has a `0 x 0` cell
array with `rows = 0` and `cols = 0`, and after `SetMapData` of a `1 x 1` matrix the
cell array is `1 x 1` while `Rows()` and `Cols()` are still `0`. -/
theorem C9_SetMapData_breaks_shape :
    ShapeOK OccupancyMap.default ∧ oneCellMatrix.WF ∧
    (OccupancyMap.default.SetMapData oneCellMatrix).map_data.rows = 1 ∧
    (OccupancyMap.default.SetMapData oneCellMatrix).Rows = 0 ∧
    ¬ ShapeOK (OccupancyMap.default.SetMapData oneCellMatrix) := by
  decide

/-- C9, amended: for a grid whose cell array has shape `rows x cols`, `SetFlip()` keeps
that shape; a `Load` that reads a raster sets `Rows()` and `Cols()` to the raster's
height and width and gives the cell array that shape; `SetMapData(data)` leaves `Rows()`
and `Cols()` as they were and gives the cell array the shape of `data`, so that the cell
array has shape `Rows() x Cols()` afterwards exactly when `data` has `rows` rows and
`cols` columns. -/
theorem C9_shape_kept (g : OccupancyMap) (hs : ShapeOK g) :
    (ShapeOK g.SetFlip ∧ g.SetFlip.Rows = g.rows ∧ g.SetFlip.Cols = g.cols) ∧
    (∀ data : MatrixXi, data.WF →
      (g.SetMapData data).Rows = g.rows ∧ (g.SetMapData data).Cols = g.cols ∧
      (g.SetMapData data).map_data.WF ∧
      (g.SetMapData data).map_data.rows = data.rows ∧
      (g.SetMapData data).map_data.cols = data.cols ∧
      (ShapeOK (g.SetMapData data) ↔
        ((data.rows : Int) = g.rows ∧ (data.cols : Int) = g.cols))) ∧
    (∀ (yaml_path : String) (fs : Files) (file : PgmStream),
      (MapConfig.Load g.map_config yaml_path (fs.yaml yaml_path)).1 = true →
      fs.pgm (MapConfig.Load g.map_config yaml_path (fs.yaml yaml_path)).2.image
        = some file →
      ShapeOK (g.Load yaml_path fs).2 ∧
      (g.Load yaml_path fs).2.Rows = file.height ∧
      (g.Load yaml_path fs).2.Cols = file.width) := by
  obtain ⟨hwf, hrows, hcols⟩ := hs
  refine ⟨⟨⟨⟨?_, ?_⟩, hrows, hcols⟩, rfl, rfl⟩, ?_, ?_⟩
  · simpa [SetFlip, flip, EigenMatrix.colwiseReverse] using hwf.1
  · intro r hr
    simp only [SetFlip, flip, EigenMatrix.colwiseReverse, List.mem_reverse] at hr
    exact hwf.2 r hr
  · intro data hd
    have hwf' : (g.SetMapData data).map_data.WF := by
      refine ⟨?_, ?_⟩
      · simpa [SetMapData, flip, EigenMatrix.colwiseReverse] using hd.1
      · intro r hr
        simp only [SetMapData, flip, EigenMatrix.colwiseReverse, List.mem_reverse] at hr
        exact hd.2 r hr
    refine ⟨rfl, rfl, hwf', rfl, rfl, ?_⟩
    constructor
    · intro h
      exact ⟨h.2.1, h.2.2⟩
    · intro h
      exact ⟨hwf', h.1, h.2⟩
  · intro yaml_path fs file h hf
    rw [Load_snd_of_raster g yaml_path fs file h hf]
    obtain ⟨h1, h2⟩ := readRows_shape file.width file.height file.rest
    exact ⟨⟨⟨h1, h2⟩, rfl, rfl⟩, rfl, rfl⟩

/-- C9, amended, on the `2 x 3` sample grid. -/
theorem C9_shape_kept_witness :
    ShapeOK sampleGrid ∧
    ((ShapeOK sampleGrid.SetFlip ∧ sampleGrid.SetFlip.Rows = sampleGrid.rows ∧
      sampleGrid.SetFlip.Cols = sampleGrid.cols) ∧
    (∀ data : MatrixXi, data.WF →
      (sampleGrid.SetMapData data).Rows = sampleGrid.rows ∧
      (sampleGrid.SetMapData data).Cols = sampleGrid.cols ∧
      (sampleGrid.SetMapData data).map_data.WF ∧
      (sampleGrid.SetMapData data).map_data.rows = data.rows ∧
      (sampleGrid.SetMapData data).map_data.cols = data.cols ∧
      (ShapeOK (sampleGrid.SetMapData data) ↔
        ((data.rows : Int) = sampleGrid.rows ∧ (data.cols : Int) = sampleGrid.cols))) ∧
    (∀ (yaml_path : String) (fs : Files) (file : PgmStream),
      (MapConfig.Load sampleGrid.map_config yaml_path (fs.yaml yaml_path)).1 = true →
      fs.pgm (MapConfig.Load sampleGrid.map_config yaml_path (fs.yaml yaml_path)).2.image
        = some file →
      ShapeOK (sampleGrid.Load yaml_path fs).2 ∧
      (sampleGrid.Load yaml_path fs).2.Rows = file.height ∧
      (sampleGrid.Load yaml_path fs).2.Cols = file.width)) :=
  ⟨by decide, C9_shape_kept sampleGrid (by decide)⟩

/-! ## C10: a failed descriptor load -/

theorem MapConfig_Load_false (cfg : MapConfig) (filename : String) (doc : YamlDoc)
    (h : (MapConfig.Load cfg filename (some doc)).1 = false) :
    (doc.resolution = none → (MapConfig.Load cfg filename (some doc)).2 = cfg) ∧
    (doc.negate = none →
      (MapConfig.Load cfg filename (some doc)).2.negate = cfg.negate ∧
      (MapConfig.Load cfg filename (some doc)).2.occupied_thresh = cfg.occupied_thresh ∧
      (MapConfig.Load cfg filename (some doc)).2.free_thresh = cfg.free_thresh ∧
      (MapConfig.Load cfg filename (some doc)).2.origin = cfg.origin ∧
      (MapConfig.Load cfg filename (some doc)).2.image = cfg.image) ∧
    (doc.occupied_thresh = none →
      (MapConfig.Load cfg filename (some doc)).2.occupied_thresh = cfg.occupied_thresh ∧
      (MapConfig.Load cfg filename (some doc)).2.free_thresh = cfg.free_thresh ∧
      (MapConfig.Load cfg filename (some doc)).2.origin = cfg.origin ∧
      (MapConfig.Load cfg filename (some doc)).2.image = cfg.image) ∧
    (doc.free_thresh = none →
      (MapConfig.Load cfg filename (some doc)).2.free_thresh = cfg.free_thresh ∧
      (MapConfig.Load cfg filename (some doc)).2.origin = cfg.origin ∧
      (MapConfig.Load cfg filename (some doc)).2.image = cfg.image) ∧
    (doc.origin = none →
      (MapConfig.Load cfg filename (some doc)).2.origin = cfg.origin ∧
      (MapConfig.Load cfg filename (some doc)).2.image = cfg.image) ∧
    (doc.image = none → (MapConfig.Load cfg filename (some doc)).2.image = cfg.image) ∧
    ((MapConfig.Load cfg filename (some doc)).2.resolution = cfg.resolution ∨
      doc.resolution = some (MapConfig.Load cfg filename (some doc)).2.resolution) ∧
    ((MapConfig.Load cfg filename (some doc)).2.negate = cfg.negate ∨
      doc.negate = some (MapConfig.Load cfg filename (some doc)).2.negate) ∧
    ((MapConfig.Load cfg filename (some doc)).2.occupied_thresh = cfg.occupied_thresh ∨
      doc.occupied_thresh = some (MapConfig.Load cfg filename (some doc)).2.occupied_thresh) ∧
    ((MapConfig.Load cfg filename (some doc)).2.free_thresh = cfg.free_thresh ∨
      doc.free_thresh = some (MapConfig.Load cfg filename (some doc)).2.free_thresh) ∧
    ((MapConfig.Load cfg filename (some doc)).2.origin = cfg.origin ∨
      doc.origin = some (MapConfig.Load cfg filename (some doc)).2.origin) ∧
    ((MapConfig.Load cfg filename (some doc)).2.image = cfg.image ∨
      (doc.image = some "" ∧ (MapConfig.Load cfg filename (some doc)).2.image = "")) := by
  obtain ⟨r, n, o, f, orig, im⟩ := doc
  cases r <;> cases n <;> cases o <;> cases f <;> cases orig <;> cases im <;>
    simp [MapConfig.Load] at h ⊢
  rename_i image
  by_cases hlen : image.length = 0
  · have : image = "" := by
      cases image with
      | mk data =>
        cases data with
        | nil => rfl
        | cons c cs => simp [String.length] at hlen
    simp [hlen, this]
  · exfalso
    simp only [hlen, if_false] at h
    split at h <;> simp at h

/-- C10 as stated fails: loading a descriptor whose `resolution` is `0.5` and whose
`negate` key is invalid into a default-constructed grid returns false, and
`map_config.resolution` has changed from `0.1` to `0.5`. -/
theorem C10_failed_load_changes_resolution :
    (OccupancyMap.default.Load "maps/map.yaml" invalidNegateFiles).1 = false ∧
    OccupancyMap.default.map_config.resolution = 1 / 10 ∧
    (OccupancyMap.default.Load "maps/map.yaml" invalidNegateFiles).2.map_config.resolution
      = 1 / 2 ∧
    (OccupancyMap.default.Load "maps/map.yaml" invalidNegateFiles).2.map_config
      ≠ OccupancyMap.default.map_config := by
  have h : (OccupancyMap.default.Load "maps/map.yaml" invalidNegateFiles).2.map_config.resolution
      = 1 / 2 := rfl
  refine ⟨rfl, rfl, h, ?_⟩
  intro he
  rw [he] at h
  simp [OccupancyMap.default, MapConfig.default] at h

/-- C10, amended: if `Load` returns false, leaving the grid `g'`, then `rows`, `cols`
and `map_data` are equal to their values before the call; `map_config` is unchanged when
the descriptor cannot be opened or its `resolution` key is invalid; in general, in the
order `resolution`, `negate`, `occupied_thresh`, `free_thresh`, `origin`, `image`, the
field of an invalid key and the fields of all later keys keep their values, every field
either keeps its value or holds the value the descriptor gives for its key, and `image`
changes only by receiving the empty string of the descriptor. -/
theorem C10_failed_load_frame (g g' : OccupancyMap) (yaml_path : String) (fs : Files)
    (hfail : g.Load yaml_path fs = (false, g')) :
    g'.rows = g.rows ∧ g'.cols = g.cols ∧ g'.map_data = g.map_data ∧
    (fs.yaml yaml_path = none → g'.map_config = g.map_config) ∧
    (∀ doc, fs.yaml yaml_path = some doc →
      (doc.resolution = none → g'.map_config = g.map_config) ∧
      (doc.negate = none →
        g'.map_config.negate = g.map_config.negate ∧
        g'.map_config.occupied_thresh = g.map_config.occupied_thresh ∧
        g'.map_config.free_thresh = g.map_config.free_thresh ∧
        g'.map_config.origin = g.map_config.origin ∧
        g'.map_config.image = g.map_config.image) ∧
      (doc.occupied_thresh = none →
        g'.map_config.occupied_thresh = g.map_config.occupied_thresh ∧
        g'.map_config.free_thresh = g.map_config.free_thresh ∧
        g'.map_config.origin = g.map_config.origin ∧
        g'.map_config.image = g.map_config.image) ∧
      (doc.free_thresh = none →
        g'.map_config.free_thresh = g.map_config.free_thresh ∧
        g'.map_config.origin = g.map_config.origin ∧
        g'.map_config.image = g.map_config.image) ∧
      (doc.origin = none →
        g'.map_config.origin = g.map_config.origin ∧
        g'.map_config.image = g.map_config.image) ∧
      (doc.image = none → g'.map_config.image = g.map_config.image) ∧
      (g'.map_config.resolution = g.map_config.resolution ∨
        doc.resolution = some g'.map_config.resolution) ∧
      (g'.map_config.negate = g.map_config.negate ∨
        doc.negate = some g'.map_config.negate) ∧
      (g'.map_config.occupied_thresh = g.map_config.occupied_thresh ∨
        doc.occupied_thresh = some g'.map_config.occupied_thresh) ∧
      (g'.map_config.free_thresh = g.map_config.free_thresh ∨
        doc.free_thresh = some g'.map_config.free_thresh) ∧
      (g'.map_config.origin = g.map_config.origin ∨
        doc.origin = some g'.map_config.origin) ∧
      (g'.map_config.image = g.map_config.image ∨
        (doc.image = some "" ∧ g'.map_config.image = ""))) := by
  have h1 : (g.Load yaml_path fs).1 = false := by rw [hfail]
  have h2 : (g.Load yaml_path fs).2 = g' := by rw [hfail]
  rw [Load_fst] at h1
  rw [Load_snd_of_false g yaml_path fs h1] at h2
  subst h2
  refine ⟨rfl, rfl, rfl, ?_, ?_⟩
  · intro hnone
    simp [hnone, MapConfig.Load]
  · intro doc hdoc
    rw [hdoc] at h1 ⊢
    exact MapConfig_Load_false g.map_config yaml_path doc h1

/-- C10, amended, on the default-constructed grid and the descriptor with an invalid
`negate` key. -/
theorem C10_failed_load_frame_witness :
    OccupancyMap.default.Load "maps/map.yaml" invalidNegateFiles = (false, halfResolutionGrid) ∧
    (halfResolutionGrid.rows = OccupancyMap.default.rows ∧ halfResolutionGrid.cols = OccupancyMap.default.cols ∧ halfResolutionGrid.map_data = OccupancyMap.default.map_data ∧
    (invalidNegateFiles.yaml "maps/map.yaml" = none → halfResolutionGrid.map_config = OccupancyMap.default.map_config) ∧
    (∀ doc, invalidNegateFiles.yaml "maps/map.yaml" = some doc →
      (doc.resolution = none → halfResolutionGrid.map_config = OccupancyMap.default.map_config) ∧
      (doc.negate = none →
        halfResolutionGrid.map_config.negate = OccupancyMap.default.map_config.negate ∧
        halfResolutionGrid.map_config.occupied_thresh = OccupancyMap.default.map_config.occupied_thresh ∧
        halfResolutionGrid.map_config.free_thresh = OccupancyMap.default.map_config.free_thresh ∧
        halfResolutionGrid.map_config.origin = OccupancyMap.default.map_config.origin ∧
        halfResolutionGrid.map_config.image = OccupancyMap.default.map_config.image) ∧
      (doc.occupied_thresh = none →
        halfResolutionGrid.map_config.occupied_thresh = OccupancyMap.default.map_config.occupied_thresh ∧
        halfResolutionGrid.map_config.free_thresh = OccupancyMap.default.map_config.free_thresh ∧
        halfResolutionGrid.map_config.origin = OccupancyMap.default.map_config.origin ∧
        halfResolutionGrid.map_config.image = OccupancyMap.default.map_config.image) ∧
      (doc.free_thresh = none →
        halfResolutionGrid.map_config.free_thresh = OccupancyMap.default.map_config.free_thresh ∧
        halfResolutionGrid.map_config.origin = OccupancyMap.default.map_config.origin ∧
        halfResolutionGrid.map_config.image = OccupancyMap.default.map_config.image) ∧
      (doc.origin = none →
        halfResolutionGrid.map_config.origin = OccupancyMap.default.map_config.origin ∧
        halfResolutionGrid.map_config.image = OccupancyMap.default.map_config.image) ∧
      (doc.image = none → halfResolutionGrid.map_config.image = OccupancyMap.default.map_config.image) ∧
      (halfResolutionGrid.map_config.resolution = OccupancyMap.default.map_config.resolution ∨
        doc.resolution = some halfResolutionGrid.map_config.resolution) ∧
      (halfResolutionGrid.map_config.negate = OccupancyMap.default.map_config.negate ∨
        doc.negate = some halfResolutionGrid.map_config.negate) ∧
      (halfResolutionGrid.map_config.occupied_thresh = OccupancyMap.default.map_config.occupied_thresh ∨
        doc.occupied_thresh = some halfResolutionGrid.map_config.occupied_thresh) ∧
      (halfResolutionGrid.map_config.free_thresh = OccupancyMap.default.map_config.free_thresh ∨
        doc.free_thresh = some halfResolutionGrid.map_config.free_thresh) ∧
      (halfResolutionGrid.map_config.origin = OccupancyMap.default.map_config.origin ∨
        doc.origin = some halfResolutionGrid.map_config.origin) ∧
      (halfResolutionGrid.map_config.image = OccupancyMap.default.map_config.image ∨
        (doc.image = some "" ∧ halfResolutionGrid.map_config.image = "")))) :=
  ⟨rfl, C10_failed_load_frame OccupancyMap.default halfResolutionGrid "maps/map.yaml"
    invalidNegateFiles rfl⟩

/-! ## C11: a missing image -/

theorem Load_snd_of_missing (g : OccupancyMap) (yaml_path : String) (fs : Files)
    (h : (MapConfig.Load g.map_config yaml_path (fs.yaml yaml_path)).1 = true)
    (hf : fs.pgm (MapConfig.Load g.map_config yaml_path (fs.yaml yaml_path)).2.image = none) :
    (g.Load yaml_path fs).2
      = { g with map_config :=
            (MapConfig.Load g.map_config yaml_path (fs.yaml yaml_path)).2 } := by
  unfold Load
  rcases hL : MapConfig.Load g.map_config yaml_path (fs.yaml yaml_path) with ⟨b, cfg⟩
  rw [hL] at h hf
  cases b
  · simp at h
  · simp only at hf
    simp only [hf]

/-- C11: when the descriptor parses and the image file it names cannot be opened, `Load`
returns true and `rows`, `cols` and `map_data` are as before the call; for a freshly
constructed grid they stay `0`, `0` and the empty matrix. -/
theorem C11_missing_image_soft_failure (g : OccupancyMap) (yaml_path : String) (fs : Files)
    (hparse : (MapConfig.Load g.map_config yaml_path (fs.yaml yaml_path)).1 = true)
    (hmiss : fs.pgm (MapConfig.Load g.map_config yaml_path (fs.yaml yaml_path)).2.image
      = none) :
    (g.Load yaml_path fs).1 = true ∧
    (g.Load yaml_path fs).2.rows = g.rows ∧
    (g.Load yaml_path fs).2.cols = g.cols ∧
    (g.Load yaml_path fs).2.map_data = g.map_data ∧
    (g = OccupancyMap.default →
      (g.Load yaml_path fs).2.rows = 0 ∧ (g.Load yaml_path fs).2.cols = 0 ∧
      (g.Load yaml_path fs).2.map_data = EigenMatrix.empty) := by
  rw [Load_fst, Load_snd_of_missing g yaml_path fs hparse hmiss]
  refine ⟨hparse, rfl, rfl, rfl, ?_⟩
  intro hg
  subst hg
  exact ⟨rfl, rfl, rfl⟩

/-- C11 on the default-constructed grid and a descriptor whose image is missing. -/
theorem C11_missing_image_soft_failure_witness :
    (MapConfig.Load OccupancyMap.default.map_config "maps/map.yaml"
      (missingImageFiles.yaml "maps/map.yaml")).1 = true ∧
    missingImageFiles.pgm (MapConfig.Load OccupancyMap.default.map_config "maps/map.yaml"
      (missingImageFiles.yaml "maps/map.yaml")).2.image = none ∧
    ((OccupancyMap.default.Load "maps/map.yaml" missingImageFiles).1 = true ∧
    (OccupancyMap.default.Load "maps/map.yaml" missingImageFiles).2.rows
      = OccupancyMap.default.rows ∧
    (OccupancyMap.default.Load "maps/map.yaml" missingImageFiles).2.cols
      = OccupancyMap.default.cols ∧
    (OccupancyMap.default.Load "maps/map.yaml" missingImageFiles).2.map_data
      = OccupancyMap.default.map_data ∧
    (OccupancyMap.default = OccupancyMap.default →
      (OccupancyMap.default.Load "maps/map.yaml" missingImageFiles).2.rows = 0 ∧
      (OccupancyMap.default.Load "maps/map.yaml" missingImageFiles).2.cols = 0 ∧
      (OccupancyMap.default.Load "maps/map.yaml" missingImageFiles).2.map_data
        = EigenMatrix.empty)) :=
  ⟨rfl, rfl,
    C11_missing_image_soft_failure OccupancyMap.default "maps/map.yaml" missingImageFiles
      rfl rfl⟩

/-! ## C12, C13: the row flip -/

/-- C12: `flip` applied to the result of `flip` gives the cell array again, for every
matrix the row reversal is an involution, and two calls of `SetFlip()` leave the grid
as it was: `map_data`, `rows`, `cols` and `map_config` are unchanged. -/
theorem C12_flip_involution (g : OccupancyMap) :
    ({ g with map_data := g.flip } : OccupancyMap).flip = g.map_data ∧
    (∀ m : MatrixXi, m.colwiseReverse.colwiseReverse = m) ∧
    g.SetFlip.SetFlip.map_data = g.map_data ∧
    g.SetFlip.SetFlip.rows = g.rows ∧
    g.SetFlip.SetFlip.cols = g.cols ∧
    g.SetFlip.SetFlip.map_config = g.map_config ∧
    g.SetFlip.SetFlip = g := by
  have hm : ∀ m : MatrixXi, m.colwiseReverse.colwiseReverse = m := by
    intro m
    cases m
    simp [EigenMatrix.colwiseReverse]
  have hg : g.SetFlip.SetFlip = g := by
    cases g
    simp [SetFlip, flip, hm]
  refine ⟨?_, hm, ?_, ?_, ?_, ?_, hg⟩
  · simp [flip, hm]
  all_goals rw [hg]

/-- C13: after `SetMapData(data)` the stored cell array has the shape of `data`, its row
`i` is row `n - 1 - i` of `data` for every `i` below the number `n` of rows, with the
columns in place, and `GetMapData()` returns the flip of `data`; for a matrix with two
different rows that is not `data`. -/
theorem C13_SetMapData_reverses_rows (g : OccupancyMap) (data : MatrixXi) (hd : data.WF) :
    (g.SetMapData data).map_data.rows = data.rows ∧
    (g.SetMapData data).map_data.cols = data.cols ∧
    (g.SetMapData data).map_data.WF ∧
    (∀ i, i < data.rows →
      (g.SetMapData data).map_data.coeffs[i]? = data.coeffs[data.rows - 1 - i]?) ∧
    (∀ i j, i < data.rows →
      (g.SetMapData data).map_data.coeff i j = data.coeff (data.rows - 1 - i) j) ∧
    (g.SetMapData data).GetMapData = ({ g with map_data := data } : OccupancyMap).flip ∧
    (g.SetMapData data).GetMapData = data.colwiseReverse ∧
    (g.SetMapData twoRowMatrix).GetMapData ≠ twoRowMatrix := by
  have hrow : ∀ i, i < data.rows →
      (g.SetMapData data).map_data.coeffs[i]? = data.coeffs[data.rows - 1 - i]? := by
    intro i hi
    have hlen : i < data.coeffs.length := by rw [hd.1]; exact hi
    simp only [SetMapData, flip, EigenMatrix.colwiseReverse]
    rw [List.getElem?_reverse hlen, hd.1]
  refine ⟨rfl, rfl, ⟨?_, ?_⟩, hrow, ?_, rfl, rfl, ?_⟩
  · simpa [SetMapData, flip, EigenMatrix.colwiseReverse] using hd.1
  · intro r hr
    simp only [SetMapData, flip, EigenMatrix.colwiseReverse, List.mem_reverse] at hr
    exact hd.2 r hr
  · intro i j hi
    unfold EigenMatrix.coeff
    rw [hrow i hi]
  · intro h
    have h2 : twoRowMatrix.colwiseReverse = twoRowMatrix := h
    exact absurd h2 (by decide)

/-- C13 on the `2 x 2` matrix with rows `[1, 2]` and `[3, 4]`. -/
theorem C13_SetMapData_reverses_rows_witness :
    twoRowMatrix.WF ∧
    ((sampleGrid.SetMapData twoRowMatrix).map_data.rows = twoRowMatrix.rows ∧
    (sampleGrid.SetMapData twoRowMatrix).map_data.cols = twoRowMatrix.cols ∧
    (sampleGrid.SetMapData twoRowMatrix).map_data.WF ∧
    (∀ i, i < twoRowMatrix.rows →
      (sampleGrid.SetMapData twoRowMatrix).map_data.coeffs[i]?
        = twoRowMatrix.coeffs[twoRowMatrix.rows - 1 - i]?) ∧
    (∀ i j, i < twoRowMatrix.rows →
      (sampleGrid.SetMapData twoRowMatrix).map_data.coeff i j
        = twoRowMatrix.coeff (twoRowMatrix.rows - 1 - i) j) ∧
    (sampleGrid.SetMapData twoRowMatrix).GetMapData
      = ({ sampleGrid with map_data := twoRowMatrix } : OccupancyMap).flip ∧
    (sampleGrid.SetMapData twoRowMatrix).GetMapData = twoRowMatrix.colwiseReverse ∧
    (sampleGrid.SetMapData twoRowMatrix).GetMapData ≠ twoRowMatrix) :=
  ⟨by decide, C13_SetMapData_reverses_rows sampleGrid twoRowMatrix (by decide)⟩

/-! ## C14: the image named by the saved descriptor -/

/-- C14, evaluated at `map_name = "maps/my.map"`: `Save` writes the raster to
`maps/my.map.pgm` and the descriptor to `maps/my.map.yaml`, but sets `image` to
`./my.pgm`: `stem()` has dropped the `.map` of the final component `my.map`. Resolved
against the directory of the descriptor this is `maps/./my.pgm`, which does not name the
raster. For `map_name = "maps/map"`, without a dot, the resolved image does name the
raster. -/
theorem C14_saved_descriptor_misses_raster :
    savedRasterPath sampleGrid "maps/my.map" = some "maps/my.map.pgm" ∧
    (Save sampleGrid "maps/my.map" true true).map (fun r => r.map.map_config.image)
      = some "./my.pgm" ∧
    (Save sampleGrid "maps/my.map" true true).map (fun r => r.yaml.map Prod.fst)
      = some (some "maps/my.map.yaml") ∧
    String.mk (pathFilename "maps/my.map".data) = "my.map" ∧
    savedImagePath sampleGrid "maps/my.map" = some "maps/./my.pgm" ∧
    sameFile "maps/./my.pgm" "maps/my.map.pgm" = false ∧
    sameFile "maps/./my.pgm" "maps/my.pgm" = true ∧
    savedRasterPath sampleGrid "maps/map" = some "maps/map.pgm" ∧
    savedImagePath sampleGrid "maps/map" = some "maps/./map.pgm" ∧
    sameFile "maps/./map.pgm" "maps/map.pgm" = true := by
  decide

/-! ## C15: `idx2xy` -/

/-- C15: for a grid whose origin holds `origin[0]` and `origin[1]`, `idx2xy(col, row)`
returns `x = origin[0] + col * resolution` and `y = origin[1] + row * resolution`; it
yields these two outputs only, the grid is not part of its result. With
`origin = (1, 1)` and `resolution = 0.5`, `idx2xy(3, 2)` returns `(2.5, 2)`. -/
theorem C15_idx2xy_affine (g : OccupancyMap) (col row : Int) (o0 o1 : ℚ)
    (h0 : g.map_config.origin[0]? = some o0) (h1 : g.map_config.origin[1]? = some o1) :
    g.idx2xy col row
      = some (o0 + col * g.map_config.resolution, o1 + row * g.map_config.resolution) ∧
    halfGrid.idx2xy 3 2 = some (5 / 2, 2) := by
  constructor
  · simp [idx2xy, originAt, h0, h1]
  · simp [halfGrid, mk5, MapConfig.mk2, idx2xy, originAt]
    norm_num

/-- C15 on the grid with `origin = (1, 1)` and `resolution = 0.5`. -/
theorem C15_idx2xy_affine_witness :
    halfGrid.map_config.origin[0]? = some 1 ∧ halfGrid.map_config.origin[1]? = some 1 ∧
    (halfGrid.idx2xy 3 2
      = some (1 + ((3 : Int) : ℚ) * halfGrid.map_config.resolution,
              1 + ((2 : Int) : ℚ) * halfGrid.map_config.resolution) ∧
    halfGrid.idx2xy 3 2 = some (5 / 2, 2)) :=
  ⟨rfl, rfl, C15_idx2xy_affine halfGrid 3 2 1 1 rfl rfl⟩

/-! ## C16: the cells that `Load` decodes -/

theorem loadCell_eq (pixel : Int) : loadCell pixel = if pixel = 0 then 100 else 0 := by
  unfold loadCell wrapInt8 OCC_GRID_OCCUPIED OCC_GRID_UNKNOWN OCC_GRID_FREE
  split_ifs <;> rfl

theorem toInt8_eq_zero (b : Nat) (hb : b < 256) : toInt8 b = 0 ↔ b = 0 := by
  unfold toInt8
  split_ifs <;> omega

theorem readRow_cells : ∀ (w : Nat) (s : List Nat), ∀ v ∈ (readRow w s).1, v = 0 ∨ v = 100 := by
  intro w
  induction w with
  | zero => intro s v hv; simp [readRow] at hv
  | succ n ih =>
    intro s v hv
    simp only [readRow, List.mem_cons] at hv
    rcases hv with rfl | hv
    · rw [loadCell_eq]
      split_ifs
      · exact Or.inr rfl
      · exact Or.inl rfl
    · exact ih _ v hv

theorem readRows_cells (w : Nat) : ∀ (h : Nat) (s : List Nat),
    ∀ r ∈ (readRows h w s).1, ∀ v ∈ r, v = 0 ∨ v = 100 := by
  intro h
  induction h with
  | zero => intro s r hr; simp [readRows] at hr
  | succ n ih =>
    intro s r hr
    simp only [readRows, List.mem_cons] at hr
    rcases hr with rfl | hr
    · exact readRow_cells w s
    · exact ih _ r hr

/-- C16: the cell decoded from a sample byte is `100` exactly when the byte is `0` and is
`0` for every byte from `1` to `255`, among them `205` and `254`; whatever is extracted,
the cell is `0` or `100`; and every cell of a grid that `Load` has read from a raster is
`0` or `100`, none is negative. -/
theorem C16_loaded_cells_are_0_or_100 (g : OccupancyMap) (yaml_path : String) (fs : Files)
    (file : PgmStream)
    (hparse : (MapConfig.Load g.map_config yaml_path (fs.yaml yaml_path)).1 = true)
    (hfile : fs.pgm (MapConfig.Load g.map_config yaml_path (fs.yaml yaml_path)).2.image
      = some file) :
    (∀ b : Nat, b < 256 →
      (loadCell (toInt8 b) = 100 ↔ b = 0) ∧ (b ≠ 0 → loadCell (toInt8 b) = 0)) ∧
    loadCell (toInt8 205) = 0 ∧ loadCell (toInt8 254) = 0 ∧
    (∀ pixel : Int, loadCell pixel = 0 ∨ loadCell pixel = 100) ∧
    (∀ i j v, (g.Load yaml_path fs).2.map_data.coeff i j = some v →
      (v = 0 ∨ v = 100) ∧ ¬ v < 0) := by
  refine ⟨?_, by decide, by decide, ?_, ?_⟩
  · intro b hb
    have hz := toInt8_eq_zero b hb
    rw [loadCell_eq]
    constructor
    · constructor
      · intro h
        by_cases h0 : toInt8 b = 0
        · exact hz.mp h0
        · simp [h0] at h
      · intro h
        simp [hz.mpr h]
    · intro hne
      have : toInt8 b ≠ 0 := fun h => hne (hz.mp h)
      simp [this]
  · intro pixel
    rw [loadCell_eq]
    split_ifs
    · exact Or.inr rfl
    · exact Or.inl rfl
  · intro i j v hv
    rw [Load_snd_of_raster g yaml_path fs file hparse hfile] at hv
    obtain ⟨r, hr, hrv⟩ := coeff_some hv
    have h := readRows_cells file.width file.height file.rest r (List.getElem?_mem hr) v
      (List.getElem?_mem hrv)
    refine ⟨h, ?_⟩
    rcases h with h | h <;> omega

/-- C16 on the example of the specification. -/
theorem C16_loaded_cells_are_0_or_100_witness :
    (MapConfig.Load OccupancyMap.default.map_config "maps/map.yaml"
      (exampleFiles.yaml "maps/map.yaml")).1 = true ∧
    exampleFiles.pgm (MapConfig.Load OccupancyMap.default.map_config "maps/map.yaml"
      (exampleFiles.yaml "maps/map.yaml")).2.image
      = some { width := 2, height := 2, maxVal := 255, rest := [10, 0, 205, 254, 205] } ∧
    ((∀ b : Nat, b < 256 →
      (loadCell (toInt8 b) = 100 ↔ b = 0) ∧ (b ≠ 0 → loadCell (toInt8 b) = 0)) ∧
    loadCell (toInt8 205) = 0 ∧ loadCell (toInt8 254) = 0 ∧
    (∀ pixel : Int, loadCell pixel = 0 ∨ loadCell pixel = 100) ∧
    (∀ i j v, (OccupancyMap.default.Load "maps/map.yaml" exampleFiles).2.map_data.coeff i j
        = some v →
      (v = 0 ∨ v = 100) ∧ ¬ v < 0)) :=
  ⟨rfl, rfl,
    C16_loaded_cells_are_0_or_100 OccupancyMap.default "maps/map.yaml" exampleFiles
      { width := 2, height := 2, maxVal := 255, rest := [10, 0, 205, 254, 205] } rfl rfl⟩

/-! ## C19: the byte of a cell, by sign -/

/-- C19: with both thresholds strictly between `0` and `1`, in either order, the byte
that `Save` writes for an integer cell `v` is `254` if `v = 0`, `0` if `v >= 1` and `205`
if `v < 0`; the positive cost value `10` is written as `0`, occupied. -/
theorem C19_save_byte_by_sign (cfg : MapConfig) (v : Int)
    (hf0 : 0 < cfg.free_thresh) (hf1 : cfg.free_thresh < 1)
    (ho0 : 0 < cfg.occupied_thresh) (ho1 : cfg.occupied_thresh < 1) :
    (v = 0 → saveByte cfg v = 254) ∧
    (1 ≤ v → saveByte cfg v = 0) ∧
    (v < 0 → saveByte cfg v = 205) ∧
    saveByte cfg 10 = 0 := by
  have pos : ∀ w : Int, 1 ≤ w → saveByte cfg w = 0 := by
    intro w hw
    have hw' : (1 : ℚ) ≤ (w : ℚ) := by exact_mod_cast hw
    unfold saveByte
    rw [if_neg (by intro h; linarith [h.2]), if_pos (by linarith)]
  refine ⟨?_, pos v, ?_, pos 10 (by decide)⟩
  · intro hv
    subst hv
    unfold saveByte
    rw [if_pos ⟨le_refl _, by simpa using le_of_lt hf0⟩]
  · intro hv
    have hv' : (v : ℚ) < 0 := by exact_mod_cast hv
    unfold saveByte
    rw [if_neg (by intro h; omega), if_neg (by intro h; linarith)]

/-- C19 on the default thresholds `free_thresh = 0.65` and `occupied_thresh = 0.25`. -/
theorem C19_save_byte_by_sign_witness :
    0 < MapConfig.default.free_thresh ∧ MapConfig.default.free_thresh < 1 ∧
    0 < MapConfig.default.occupied_thresh ∧ MapConfig.default.occupied_thresh < 1 ∧
    (((10 : Int) = 0 → saveByte MapConfig.default 10 = 254) ∧
    ((1 : Int) ≤ 10 → saveByte MapConfig.default 10 = 0) ∧
    ((10 : Int) < 0 → saveByte MapConfig.default 10 = 205) ∧
    saveByte MapConfig.default 10 = 0) :=
  ⟨by norm_num [MapConfig.default], by norm_num [MapConfig.default],
    by norm_num [MapConfig.default], by norm_num [MapConfig.default],
    C19_save_byte_by_sign MapConfig.default 10 (by norm_num [MapConfig.default])
      (by norm_num [MapConfig.default]) (by norm_num [MapConfig.default])
      (by norm_num [MapConfig.default])⟩

end OccupancyMap

/-! ## Lemmas on tables and on loops over a state -/

theorem setAt_lengths {α : Type} (ll : List (List α)) (y x : Nat) (v : α) :
    (setAt ll y x v).map List.length = ll.map List.length := by
  unfold setAt
  cases h : ll[y]? with
  | none => rfl
  | some r =>
    simp only [List.map_set, List.length_set]
    apply List.ext_getElem?
    intro n
    rw [List.getElem?_set]
    by_cases hn : y = n
    · subst hn
      have hlt : y < ll.length := by
        by_contra hge
        rw [List.getElem?_eq_none (by omega)] at h
        cases h
      have hr : ll[y] = r := by
        have := List.getElem?_eq_getElem hlt
        rw [h] at this
        exact (Option.some.inj this).symm
      simp [hlt, List.getElem?_map, hr]
    · simp [hn]

theorem getAt_setAt_self {α : Type} (ll : List (List α)) (y x : Nat) (v : α)
    (h : (getAt ll y x).isSome) : getAt (setAt ll y x v) y x = some v := by
  unfold getAt at h ⊢
  unfold setAt
  cases hr : ll[y]? with
  | none => simp [hr] at h
  | some r =>
    simp only [hr, Option.some_bind] at h
    have hy : y < ll.length := by
      by_contra hge
      rw [List.getElem?_eq_none (by omega)] at hr
      cases hr
    have hx : x < r.length := by
      by_contra hge
      rw [List.getElem?_eq_none (by omega)] at h
      cases h
    simp [List.getElem?_set, hy, hx]

theorem getAt_setAt_ne {α : Type} (ll : List (List α)) (y x y' x' : Nat) (v : α)
    (h : y' ≠ y ∨ x' ≠ x) : getAt (setAt ll y x v) y' x' = getAt ll y' x' := by
  unfold getAt setAt
  cases hr : ll[y]? with
  | none => rfl
  | some r =>
    simp only
    by_cases hy : y = y'
    · subst hy
      have hx : x ≠ x' := by
        rcases h with h | h
        · exact absurd rfl h
        · exact fun e => h e.symm
      have hlt : y < ll.length := by
        by_contra hge
        rw [List.getElem?_eq_none (by omega)] at hr
        cases hr
      simp [List.getElem?_set, hlt, hr, hx]
    · simp [List.getElem?_set, hy]

theorem ext_of_getAt {α : Type} (a b : List (List α))
    (hlen : a.map List.length = b.map List.length)
    (h : ∀ y x, getAt a y x = getAt b y x) : a = b := by
  apply List.ext_getElem?
  intro n
  have hn : (a.map List.length)[n]? = (b.map List.length)[n]? := by rw [hlen]
  simp only [List.getElem?_map] at hn
  cases ha : a[n]? with
  | none =>
    cases hb : b[n]? with
    | none => rfl
    | some rb => simp [ha, hb] at hn
  | some ra =>
    cases hb : b[n]? with
    | none => simp [ha, hb] at hn
    | some rb =>
      congr 1
      apply List.ext_getElem?
      intro k
      have := h n k
      simpa [getAt, ha, hb] using this

theorem getAt_lt_of_shape {α : Type} (ll : List (List α)) (H W y x : Nat) (v : α)
    (hs : ll.map List.length = List.replicate H W) (h : getAt ll y x = some v) :
    y < H ∧ x < W := by
  unfold getAt at h
  have hn : (ll.map List.length)[y]? = (List.replicate H W)[y]? := by rw [hs]
  simp only [List.getElem?_map, List.getElem?_replicate] at hn
  cases hr : ll[y]? with
  | none => simp [hr] at h
  | some r =>
    simp only [hr, Option.some_bind] at h
    simp only [hr, Option.map_some'] at hn
    have hx : x < r.length := by
      by_contra hge
      rw [List.getElem?_eq_none (by omega)] at h
      cases h
    split_ifs at hn with hy
    simp only [Option.some.injEq] at hn
    exact ⟨hy, by omega⟩

theorem getAt_isSome_of_shape {α : Type} (ll : List (List α)) (H W y x : Nat)
    (hs : ll.map List.length = List.replicate H W) (hy : y < H) (hx : x < W) :
    (getAt ll y x).isSome := by
  unfold getAt
  have hn : (ll.map List.length)[y]? = (List.replicate H W)[y]? := by rw [hs]
  simp only [List.getElem?_map, List.getElem?_replicate, hy, if_true] at hn
  cases hr : ll[y]? with
  | none => simp [hr] at hn
  | some r =>
    simp only [hr, Option.map_some', Option.some.injEq] at hn
    simp only [Option.some_bind]
    rw [List.getElem?_eq_getElem (by omega)]
    rfl

theorem table_lengths {α : Type} (H W : Nat) (f : Nat → Nat → α) :
    ((List.range H).map fun y => (List.range W).map fun x => f x y).map List.length
      = List.replicate H W := by
  apply List.ext_getElem?
  intro n
  simp only [List.getElem?_map, List.getElem?_replicate]
  by_cases hn : n < H
  · simp [List.getElem?_range hn, hn]
  · simp [List.getElem?_eq_none (show (List.range H).length ≤ n by simp; omega), hn]

theorem getAt_table {α : Type} (H W : Nat) (f : Nat → Nat → α) (y x : Nat)
    (hy : y < H) (hx : x < W) :
    getAt ((List.range H).map fun y => (List.range W).map fun x => f x y) y x
      = some (f x y) := by
  simp [getAt, List.getElem?_map, List.getElem?_range hy, List.getElem?_range hx]

theorem forState_inv {σ : Type} (P : Nat → σ → Prop) (n : Nat)
    (body : Nat → σ → Option σ) (s0 : σ) (h0 : P 0 s0)
    (hstep : ∀ k s, k < n → P k s → ∃ s', body k s = some s' ∧ P (k + 1) s') :
    ∃ s', forState n body s0 = some s' ∧ P n s' := by
  induction n with
  | zero => exact ⟨s0, rfl, h0⟩
  | succ n ih =>
    obtain ⟨s1, h1, hP1⟩ := ih (fun k s hk hP => hstep k s (Nat.lt_succ_of_lt hk) hP)
    obtain ⟨s2, h2, hP2⟩ := hstep n s1 (Nat.lt_succ_self n) hP1
    exact ⟨s2, by simp [forState, h1, h2], hP2⟩

theorem getAt_eq_none_of_shape {α : Type} (ll : List (List α)) (H W y x : Nat)
    (hs : ll.map List.length = List.replicate H W) (h : ¬ (y < H ∧ x < W)) :
    getAt ll y x = none := by
  cases hg : getAt ll y x with
  | none => rfl
  | some v => exact absurd (getAt_lt_of_shape ll H W y x v hs hg) h

theorem fill_loops {σ β : Type} (proj : σ → List (List β)) (I : σ → Prop) (W H : Nat)
    (val : Nat → Nat → β) (body : Nat → Nat → σ → Option σ)
    (hbody : ∀ i j s, i < W → j < H → I s →
      (proj s).map List.length = List.replicate H W →
      ∃ s', body i j s = some s' ∧ I s' ∧ proj s' = setAt (proj s) j i (val i j))
    (s0 : σ) (hI : I s0) (hshape : (proj s0).map List.length = List.replicate H W) :
    ∃ s', forState W (fun i s => forState H (fun j s => body i j s) s) s0 = some s' ∧
      I s' ∧ proj s' = (List.range H).map fun y => (List.range W).map fun x => val x y := by
  have outer := forState_inv
    (fun k s => I s ∧ (proj s).map List.length = List.replicate H W ∧
      ∀ y x, y < H → x < k → getAt (proj s) y x = some (val x y))
    W (fun i s => forState H (fun j s => body i j s) s) s0
    ⟨hI, hshape, fun y x _ hx => absurd hx (Nat.not_lt_zero x)⟩
    (by
      intro i s hi hP
      obtain ⟨hIs, hsh, hdone⟩ := hP
      have inner := forState_inv
        (fun l t => I t ∧ (proj t).map List.length = List.replicate H W ∧
          (∀ y x, y < H → x < i → getAt (proj t) y x = some (val x y)) ∧
          ∀ y, y < l → getAt (proj t) y i = some (val i y))
        H (fun j s => body i j s) s
        ⟨hIs, hsh, hdone, fun y hy => absurd hy (Nat.not_lt_zero y)⟩
        (by
          intro j t hj hQ
          obtain ⟨hIt, hsht, hd, hcol⟩ := hQ
          obtain ⟨t', hb, hIt', hproj⟩ := hbody i j t hi hj hIt hsht
          refine ⟨t', hb, hIt', ?_, ?_, ?_⟩
          · rw [hproj, setAt_lengths]; exact hsht
          · intro y x hy hx
            rw [hproj, getAt_setAt_ne _ _ _ _ _ _ (Or.inr (by omega))]
            exact hd y x hy hx
          · intro y hy
            rw [hproj]
            by_cases hyj : y = j
            · subst hyj
              exact getAt_setAt_self _ _ _ _ (getAt_isSome_of_shape _ H W _ _ hsht hj hi)
            · rw [getAt_setAt_ne _ _ _ _ _ _ (Or.inl hyj)]
              exact hcol y (by omega))
      obtain ⟨t, ht, hIt, hsht, hd, hcol⟩ := inner
      refine ⟨t, ht, hIt, hsht, ?_⟩
      intro y x hy hx
      by_cases hxi : x = i
      · subst hxi; exact hcol y hy
      · exact hd y x hy (by omega))
  obtain ⟨s', hs', hI', hsh', hall⟩ := outer
  refine ⟨s', hs', hI', ext_of_getAt _ _ (by rw [hsh', table_lengths]) ?_⟩
  intro y x
  by_cases hyx : y < H ∧ x < W
  · rw [hall y x hyx.1 hyx.2, getAt_table H W val y x hyx.1 hyx.2]
  · rw [getAt_eq_none_of_shape _ H W y x hsh' hyx,
      getAt_eq_none_of_shape _ H W y x (table_lengths H W val) hyx]

theorem map_lengths_of_WF {α : Type} (m : EigenMatrix α) (h : m.WF) :
    m.coeffs.map List.length = List.replicate m.rows m.cols := by
  apply List.ext_getElem?
  intro n
  simp only [List.getElem?_map, List.getElem?_replicate]
  cases hr : m.coeffs[n]? with
  | none =>
    have : ¬ n < m.rows := by
      intro hlt
      rw [← h.1] at hlt
      rw [List.getElem?_eq_getElem hlt] at hr
      cases hr
    simp [this]
  | some r =>
    have hlt : n < m.rows := by
      rw [← h.1]
      by_contra hge
      rw [List.getElem?_eq_none (by omega)] at hr
      cases hr
    simp [hlt, h.2 r (List.getElem?_mem hr)]

theorem table_eq_map {α β : Type} (ll : List (List α)) (H W : Nat) (d : α) (f : α → β)
    (hs : ll.map List.length = List.replicate H W) :
    ((List.range H).map fun y => (List.range W).map fun x => f ((getAt ll y x).getD d))
      = ll.map (List.map f) := by
  apply ext_of_getAt
  · rw [table_lengths H W fun x y => f ((getAt ll y x).getD d)]
    rw [← hs, List.map_map]
    congr 1
    funext r
    simp
  · intro y x
    by_cases hyx : y < H ∧ x < W
    · rw [getAt_table H W (fun x y => f ((getAt ll y x).getD d)) y x hyx.1 hyx.2]
      have hsome := getAt_isSome_of_shape ll H W y x hs hyx.1 hyx.2
      obtain ⟨v, hv⟩ := Option.isSome_iff_exists.mp hsome
      rw [hv]
      unfold getAt at hv ⊢
      simp only [List.getElem?_map]
      cases hr : ll[y]? with
      | none => simp [hr] at hv
      | some r =>
        simp only [hr, Option.some_bind] at hv
        simp [hv]
    · rw [getAt_eq_none_of_shape _ H W y x
        (table_lengths H W fun x y => f ((getAt ll y x).getD d)) hyx]
      have hs' : (ll.map (List.map f)).map List.length = List.replicate H W := by
        rw [← hs, List.map_map]
        congr 1
        funext r
        simp
      rw [getAt_eq_none_of_shape _ H W y x hs' hyx]

end basic

namespace Display

open basic

namespace DisplayOccMap

/-! ## C17: the display round trip -/

theorem cellColor_eq (v : Int) :
    cellColor v = if v > 0 then Qt_black else if v < 0 then Qt_gray else Qt_white := by
  unfold cellColor
  simp only [gt_iff_lt, Int.cast_pos, Int.cast_lt_zero]

theorem pixel_of_cellColor (v : Int) :
    (if 0xff000000 ||| (0xff000000 ||| cellColor v) = Qt_black then (100 : Int)
      else if 0xff000000 ||| (0xff000000 ||| cellColor v) = Qt_gray then -1 else 0)
      = signCell v := by
  rw [cellColor_eq]
  unfold signCell
  rcases lt_trichotomy v 0 with h | h | h
  · have h1 : ¬ v > 0 := by omega
    rw [if_neg h1, if_pos h, if_neg h1, if_pos h]
    decide
  · subst h
    decide
  · rw [if_pos h, if_pos h]
    decide

theorem setPixel_inside (img : QImage) (x y : Nat) (rgb : Nat)
    (hx : x < img.width) (hy : y < img.height) :
    img.setPixel x y rgb
      = { img with scanLines := setAt img.scanLines y x (0xff000000 ||| rgb) } := by
  unfold QImage.setPixel
  rw [if_neg (by omega)]
  simp

theorem pixel_inside (img : QImage) (x y : Nat) (hx : x < img.width) (hy : y < img.height) :
    img.pixel x y = 0xff000000 ||| (getAt img.scanLines y x).getD 0 := by
  unfold QImage.pixel
  rw [if_neg (by omega)]
  simp

theorem parse_spec (d : DisplayOccMap) (m : OccupancyMap) (init : Nat → Nat → Nat)
    (hs : OccupancyMap.ShapeOK m) :
    ∃ img, ParseOccupyMap { d with map_data_ := m } init
        = some { map_data_ := m, map_image_ := img } ∧
      ((img.width = 0 ∧ (m.map_data.cols = 0 ∨ m.map_data.rows = 0)) ∨
       (img.width = m.map_data.cols ∧ img.height = m.map_data.rows ∧
        0 < m.map_data.cols ∧ 0 < m.map_data.rows ∧
        img.scanLines = (List.range m.map_data.rows).map fun y =>
          (List.range m.map_data.cols).map fun x =>
            0xff000000 ||| cellColor ((getAt m.map_data.coeffs y x).getD 0))) := by
  obtain ⟨hwf, hrows, hcols⟩ := hs
  have hC : m.Cols.toNat = m.map_data.cols := by unfold OccupancyMap.Cols; omega
  have hR : m.Rows.toNat = m.map_data.rows := by unfold OccupancyMap.Rows; omega
  have hshape := map_lengths_of_WF m.map_data hwf
  unfold ParseOccupyMap
  simp only [hC, hR]
  by_cases hpos : 0 < m.map_data.cols ∧ 0 < m.map_data.rows
  · have hcreate : QImage.create m.Cols m.Rows init
        = { width := m.map_data.cols, height := m.map_data.rows,
            scanLines := (List.range m.map_data.rows).map fun y =>
              (List.range m.map_data.cols).map fun x => init x y } := by
      unfold QImage.create
      rw [if_pos (by unfold OccupancyMap.Cols OccupancyMap.Rows; omega), hC, hR]
    obtain ⟨img, himg, hI, hproj⟩ := fill_loops QImage.scanLines
      (fun img => img.width = m.map_data.cols ∧ img.height = m.map_data.rows)
      m.map_data.cols m.map_data.rows
      (fun x y => 0xff000000 ||| cellColor ((getAt m.map_data.coeffs y x).getD 0))
      (fun i j img => (m.map_data.coeff j i).map fun v => img.setPixel i j (cellColor v))
      (by
        intro i j img hi hj hI _
        have hsome := getAt_isSome_of_shape m.map_data.coeffs _ _ j i hshape hj hi
        obtain ⟨v, hv⟩ := Option.isSome_iff_exists.mp hsome
        have hv' : m.map_data.coeff j i = some v := hv
        beta_reduce
        refine ⟨img.setPixel i j (cellColor v), by rw [hv']; rfl, ?_, ?_⟩
        · rw [setPixel_inside img i j _ (by omega) (by omega)]
          exact hI
        · rw [setPixel_inside img i j _ (by omega) (by omega), hv]
          rfl)
      { width := m.map_data.cols, height := m.map_data.rows,
        scanLines := (List.range m.map_data.rows).map fun y =>
          (List.range m.map_data.cols).map fun x => init x y }
      ⟨rfl, rfl⟩ (table_lengths _ _ _)
    refine ⟨img, ?_, Or.inr ⟨hI.1, hI.2, hpos.1, hpos.2, hproj⟩⟩
    rw [hcreate, himg]
    rfl
  · have hcreate : QImage.create m.Cols m.Rows init
        = { width := 0, height := 0, scanLines := [] } := by
      unfold QImage.create
      rw [if_neg (by unfold OccupancyMap.Cols OccupancyMap.Rows; omega)]
    have hz : m.map_data.cols = 0 ∨ m.map_data.rows = 0 := by omega
    obtain ⟨img, himg, hP⟩ := forState_inv
      (fun _ img => img = ({ width := 0, height := 0, scanLines := [] } : QImage))
      m.map_data.cols
      (fun i img => forState m.map_data.rows (fun j img =>
        (m.map_data.coeff j i).map fun v => img.setPixel i j (cellColor v)) img)
      { width := 0, height := 0, scanLines := [] } rfl
      (by
        intro k s hk hs
        have h0 : m.map_data.rows = 0 := by omega
        rw [h0]
        exact ⟨s, rfl, hs⟩)
    refine ⟨img, ?_, Or.inl ⟨by rw [hP], hz⟩⟩
    rw [hcreate, himg]
    rfl

theorem assignCell_inside (g : OccupancyMap) (r c : Nat) (v : Int)
    (h : (getAt g.map_data.coeffs r c).isSome) :
    g.assignCell r c v
      = some { g with map_data :=
          { g.map_data with coeffs := setAt g.map_data.coeffs r c v } } := by
  have h' : (g.map_data.coeff r c).isSome = true := h
  unfold OccupancyMap.assignCell
  rw [if_pos h']

theorem get_spec (m : OccupancyMap) (img : QImage) (hs : OccupancyMap.ShapeOK m)
    (himg : (img.width = 0 ∧ (m.map_data.cols = 0 ∨ m.map_data.rows = 0)) ∨
       (img.width = m.map_data.cols ∧ img.height = m.map_data.rows ∧
        0 < m.map_data.cols ∧ 0 < m.map_data.rows ∧
        img.scanLines = (List.range m.map_data.rows).map fun y =>
          (List.range m.map_data.cols).map fun x =>
            0xff000000 ||| cellColor ((getAt m.map_data.coeffs y x).getD 0))) :
    GetOccupancyMap { map_data_ := m, map_image_ := img }
      = some { m with map_data :=
          { m.map_data with coeffs := m.map_data.coeffs.map (List.map signCell) } } := by
  obtain ⟨hwf, hrows, hcols⟩ := hs
  have hshape := map_lengths_of_WF m.map_data hwf
  unfold GetOccupancyMap
  rcases himg with ⟨hw0, hz⟩ | ⟨hw, hh, hcpos, hrpos, hscan⟩
  · simp only [hw0]
    have hsame : m.map_data.coeffs.map (List.map signCell) = m.map_data.coeffs := by
      have : ∀ r ∈ m.map_data.coeffs, List.map signCell r = id r := by
        intro r hr
        rcases hz with hz | hz
        · have hl : r.length = 0 := by rw [hwf.2 r hr, hz]
          rw [List.length_eq_zero.mp hl]
          rfl
        · have hl : m.map_data.coeffs.length = 0 := by rw [hwf.1, hz]
          rw [List.length_eq_zero.mp hl] at hr
          cases hr
      rw [List.map_congr_left this, List.map_id]
    rw [hsame]
    rfl
  · simp only [hw, hh]
    obtain ⟨out, hout, hI, hproj⟩ := fill_loops
      (fun g : OccupancyMap => g.map_data.coeffs)
      (fun g => g.map_config = m.map_config ∧ g.rows = m.rows ∧ g.cols = m.cols ∧
        g.map_data.rows = m.map_data.rows ∧ g.map_data.cols = m.map_data.cols)
      m.map_data.cols m.map_data.rows
      (fun x y => signCell ((getAt m.map_data.coeffs y x).getD 0))
      (fun i j map =>
        if img.pixel i j = Qt_black then map.assignCell j i 100
        else if img.pixel i j = Qt_gray then map.assignCell j i (-1)
        else map.assignCell j i 0)
      (by
        intro i j g hi hj hI hsh
        beta_reduce
        have hsome := getAt_isSome_of_shape g.map_data.coeffs _ _ j i hsh hj hi
        have hpix : img.pixel i j = 0xff000000 |||
            (0xff000000 ||| cellColor ((getAt m.map_data.coeffs j i).getD 0)) := by
          rw [pixel_inside img i j (by omega) (by omega), hscan,
            getAt_table _ _ _ j i hj hi]
          rfl
        have hbranch : (if img.pixel i j = Qt_black then g.assignCell j i 100
            else if img.pixel i j = Qt_gray then g.assignCell j i (-1)
            else g.assignCell j i 0)
            = g.assignCell j i (if img.pixel i j = Qt_black then 100
                else if img.pixel i j = Qt_gray then -1 else 0) := by
          split_ifs <;> rfl
        rw [hbranch, hpix, pixel_of_cellColor, assignCell_inside g j i _ hsome]
        exact ⟨_, rfl, hI, rfl⟩)
      m ⟨rfl, rfl, rfl, rfl, rfl⟩ hshape
    rw [hout]
    have htab := table_eq_map m.map_data.coeffs m.map_data.rows m.map_data.cols 0 signCell
      hshape
    rw [htab] at hproj
    obtain ⟨h1, h2, h3, h4, h5⟩ := hI
    obtain ⟨cfg, r, c, ⟨mr, mc, co⟩⟩ := out
    simp only at h1 h2 h3 h4 h5 hproj
    subst h1 h2 h3 h4 h5 hproj
    rfl

theorem round_trip_spec (d : DisplayOccMap) (m : OccupancyMap) (init : Nat → Nat → Nat)
    (hs : OccupancyMap.ShapeOK m) :
    ∃ d1, d.UpdateData (.occupancyMap m) init = some (true, d1) ∧
      d1.GetOccupancyMap = some (canonical m) := by
  obtain ⟨img, hparse, himg⟩ := parse_spec d m init hs
  refine ⟨{ map_data_ := m, map_image_ := img }, ?_, get_spec m img hs himg⟩
  unfold UpdateData
  simp only [hparse]
  rfl

theorem signCell_idem (v : Int) : signCell (signCell v) = signCell v := by
  unfold signCell
  split_ifs <;> first | rfl | omega

theorem canonical_shape (m : OccupancyMap) (hs : OccupancyMap.ShapeOK m) :
    OccupancyMap.ShapeOK (canonical m) := by
  obtain ⟨hwf, hrows, hcols⟩ := hs
  refine ⟨⟨?_, ?_⟩, hrows, hcols⟩
  · simpa [canonical] using hwf.1
  · intro r hr
    simp only [canonical, List.mem_map] at hr
    obtain ⟨r0, hr0, rfl⟩ := hr
    simpa using hwf.2 r0 hr0

theorem canonical_coeff (m : OccupancyMap) (j i : Nat) :
    (canonical m).map_data.coeff j i = (m.map_data.coeff j i).map signCell := by
  simp only [canonical, EigenMatrix.coeff, List.getElem?_map]
  cases m.map_data.coeffs[j]? with
  | none => rfl
  | some r =>
    simp only [Option.map_some', Option.some_bind, List.getElem?_map]

theorem canonical_idem (m : OccupancyMap) : canonical (canonical m) = canonical m := by
  simp only [canonical, List.map_map]
  congr 2
  apply List.map_congr_left
  intro r _
  simp only [Function.comp, List.map_map]
  apply List.map_congr_left
  intro v _
  exact signCell_idem v

theorem canonical_fixed (m : OccupancyMap)
    (h : ∀ j i v, m.map_data.coeff j i = some v → v = 0 ∨ v = 100 ∨ v = -1) :
    canonical m = m := by
  have hc : m.map_data.coeffs.map (List.map signCell) = m.map_data.coeffs := by
    apply ext_of_getAt
    · rw [List.map_map]
      congr 1
      funext r
      simp
    · intro y x
      have := canonical_coeff m y x
      simp only [canonical, EigenMatrix.coeff] at this
      unfold getAt
      rw [this]
      cases hv : m.map_data.coeffs[y]?.bind (fun r => r[x]?) with
      | none => rfl
      | some v =>
        have hv3 := h y x v hv
        simp only [Option.map_some', Option.some.injEq]
        rcases hv3 with h0 | h0 | h0 <;> subst h0 <;> rfl
  obtain ⟨cfg, r, c, ⟨mr, mc, co⟩⟩ := m
  simp only [canonical] at hc ⊢
  rw [hc]

/-- C17: for a grid `m` whose cell array has shape `rows x cols`, `UpdateData(m)`
returns true and `GetOccupancyMap()` directly afterwards returns a grid with the
`map_config`, `rows` and `cols` of `m` and the same shape, whose cell `(j, i)` is `100`
if `m(j, i) > 0`, `-1` if `m(j, i) < 0` and `0` if `m(j, i) = 0`; a grid whose cells are
all `0`, `100` or `-1` is returned unchanged, and the round trip applied to the result
returns the result again. -/
theorem C17_display_round_trip (d : DisplayOccMap) (m : OccupancyMap)
    (init : Nat → Nat → Nat) (hs : OccupancyMap.ShapeOK m) :
    ∃ d1 out, d.UpdateData (.occupancyMap m) init = some (true, d1) ∧
      d1.GetOccupancyMap = some out ∧
      out.map_config = m.map_config ∧ out.rows = m.rows ∧ out.cols = m.cols ∧
      OccupancyMap.ShapeOK out ∧
      (∀ j i v, m.map_data.coeff j i = some v →
        out.map_data.coeff j i = some (if v > 0 then 100 else if v < 0 then -1 else 0)) ∧
      ((∀ j i v, m.map_data.coeff j i = some v → v = 0 ∨ v = 100 ∨ v = -1) → out = m) ∧
      (∀ (d' : DisplayOccMap) (init' : Nat → Nat → Nat),
        ∃ d2, d'.UpdateData (.occupancyMap out) init' = some (true, d2) ∧
          d2.GetOccupancyMap = some out) := by
  obtain ⟨d1, hup, hget⟩ := round_trip_spec d m init hs
  refine ⟨d1, canonical m, hup, hget, rfl, rfl, rfl, canonical_shape m hs, ?_, ?_, ?_⟩
  · intro j i v hv
    rw [canonical_coeff, hv]
    rfl
  · exact canonical_fixed m
  · intro d' init'
    obtain ⟨d2, hup2, hget2⟩ := round_trip_spec d' (canonical m) init' (canonical_shape m hs)
    rw [canonical_idem] at hget2
    exact ⟨d2, hup2, hget2⟩

/-- C17 on the `2 x 3` sample grid. -/
theorem C17_display_round_trip_witness :
    OccupancyMap.ShapeOK OccupancyMap.sampleGrid ∧
    (∃ d1 out, emptyDisplay.UpdateData (.occupancyMap OccupancyMap.sampleGrid)
        (fun _ _ => 0) = some (true, d1) ∧
      d1.GetOccupancyMap = some out ∧
      out.map_config = OccupancyMap.sampleGrid.map_config ∧
      out.rows = OccupancyMap.sampleGrid.rows ∧ out.cols = OccupancyMap.sampleGrid.cols ∧
      OccupancyMap.ShapeOK out ∧
      (∀ j i v, OccupancyMap.sampleGrid.map_data.coeff j i = some v →
        out.map_data.coeff j i = some (if v > 0 then 100 else if v < 0 then -1 else 0)) ∧
      ((∀ j i v, OccupancyMap.sampleGrid.map_data.coeff j i = some v →
        v = 0 ∨ v = 100 ∨ v = -1) → out = OccupancyMap.sampleGrid) ∧
      (∀ (d' : DisplayOccMap) (init' : Nat → Nat → Nat),
        ∃ d2, d'.UpdateData (.occupancyMap out) init' = some (true, d2) ∧
          d2.GetOccupancyMap = some out)) :=
  ⟨by decide,
    C17_display_round_trip emptyDisplay OccupancyMap.sampleGrid (fun _ _ => 0) (by decide)⟩

/-! ## C18: the pixels that `EraseMapRange` writes -/

end DisplayOccMap

end Display
